import Mathlib

/-!
# SmartCryptoTech-api: validated request pipeline

A shallow embedding of `src/index.js`: the validators, the promise executors of the
client operations and the response handler of the transport.

Modelling conventions.

* JavaScript values are the type `JsVal`. Functions, symbols, getters and prototype
  properties are outside the model: an object is its list of own properties, an array
  is its list of elements.
* A JavaScript string is a Lean `String` (a sequence of Unicode scalar values); its
  `.length` is the number of UTF-16 code units, `jsLength`.
* A JavaScript number is a `JsNum`: an exact rational, `NaN`, or a signed infinity.
  The sums the program forms (`10 + 10 * length`) are exact in IEEE doubles below `2^53`,
  the range in which the model and the machine agree.
* Reading a property of `undefined` or `null` throws; the model returns `Except JsThrow`.
  An exception thrown inside a promise executor rejects the promise with the thrown error.
* A call of an operation is described by the list of its effects, in program order:
  `Event.reject`, `Event.resolve` and `Event.request` (one HTTP request handed to the
  transport). A promise is settled by the first `reject` or `resolve`; later ones have no
  effect on it, a later `request` is still sent.
* The body of a request is kept as the tree of its JSON text, `Json`, not as characters;
  where the length of the body matters, `buildRpcText` and `requestOptions` work on the text.
* Statement sequences that the file repeats verbatim are embedded once: `checkTransaction`
  and `renameMixInUnlock` for `sendTransaction` and `createDelayedTransaction`,
  `transactionQuery` for `getTransactionHashes` and `getTransactions`.
* The embedding is of the functions of the file. Its first line exports the name `CCX`,
  which the file does not declare; the constructor it defines is `SCT`.
-/

namespace SCT

/-! ## Values -/

/-- A JavaScript number. -/
inductive JsNum where
  | fin (q : Rat)
  | nan
  | posInf
  | negInf
  deriving DecidableEq

/-- A JavaScript value. -/
inductive JsVal where
  | undefined
  | null
  | bool (b : Bool)
  | num (x : JsNum)
  | str (s : String)
  | arr (xs : List JsVal)
  | obj (fields : List (String × JsVal))

/-- An exception raised by the language itself. -/
inductive JsThrow where
  /-- Reading property `key` of `base` when `base` is `undefined` or `null`. -/
  | typeError (base : JsVal) (key : String)
  /-- Calling `base.key(...)` when `base.key` is not a function. -/
  | notCallable (base : JsVal) (key : String)

/-- The tree of a JSON text, as written by `JSON.stringify`. -/
inductive Json where
  | null
  | bool (b : Bool)
  | num (q : Rat)
  | str (s : String)
  | arr (xs : List Json)
  | obj (fields : List (String × Json))

namespace JsNum

/-- The test `Number.isInteger` on a number. -/
def isInteger : JsNum → Bool
  | fin q => q.den == 1
  | _ => false

/-- The comparison `a <= b` of two numbers; false when either is `NaN`. -/
def le : JsNum → JsNum → Bool
  | nan, _ => false
  | _, nan => false
  | fin a, fin b => decide (a ≤ b)
  | negInf, _ => true
  | _, posInf => true
  | posInf, _ => false
  | fin _, negInf => false

/-- The comparison `a < b` of two numbers; false when either is `NaN`. -/
def lt : JsNum → JsNum → Bool
  | nan, _ => false
  | _, nan => false
  | fin a, fin b => decide (a < b)
  | posInf, _ => false
  | _, negInf => false
  | negInf, _ => true
  | fin _, posInf => true

/-- The comparison `a >= b`. -/
def ge (a b : JsNum) : Bool := le b a

/-- The comparison `a > b`. -/
def gt (a b : JsNum) : Bool := lt b a

/-- The sum `a + b` of two numbers. -/
def add : JsNum → JsNum → JsNum
  | nan, _ => nan
  | _, nan => nan
  | fin a, fin b => fin (a + b)
  | posInf, negInf => nan
  | negInf, posInf => nan
  | posInf, _ => posInf
  | negInf, _ => negInf
  | fin _, posInf => posInf
  | fin _, negInf => negInf

/-- The infinity with the sign of `s`, or `NaN` when `s` is zero. -/
def signedInf (positive : Bool) (s : Rat) : JsNum :=
  if s = 0 then nan
  else if decide (0 < s) = positive then posInf
  else negInf

/-- The product `a * b` of two numbers. -/
def mul : JsNum → JsNum → JsNum
  | nan, _ => nan
  | _, nan => nan
  | fin a, fin b => fin (a * b)
  | posInf, posInf => posInf
  | negInf, negInf => posInf
  | posInf, negInf => negInf
  | negInf, posInf => negInf
  | posInf, fin b => signedInf true b
  | negInf, fin b => signedInf false b
  | fin a, posInf => signedInf true a
  | fin a, negInf => signedInf false a

end JsNum

/-- The UTF-16 code units of a string. -/
def utf16 (s : String) : List Nat :=
  s.data.flatMap fun c =>
    if c.val.toNat < 65536 then [c.val.toNat]
    else [55296 + (c.val.toNat - 65536) / 1024, 56320 + (c.val.toNat - 65536) % 1024]

/-- The `.length` of a string: its number of UTF-16 code units. -/
def jsLength (s : String) : Nat := (utf16 s).length

/-- The value of the own property `key` in a property list; `undefined` when absent. -/
def lookup (fields : List (String × JsVal)) (key : String) : JsVal :=
  (fields.lookup key).getD .undefined

/-- The property list after `o[key] = v`: an existing property keeps its place. -/
def setField : List (String × JsVal) → String → JsVal → List (String × JsVal)
  | [], key, v => [(key, v)]
  | (k, x) :: rest, key, v =>
    if k == key then (k, v) :: rest else (k, x) :: setField rest key v

/-- The property list after `delete o[key]`. -/
def deleteField (fields : List (String × JsVal)) (key : String) : List (String × JsVal) :=
  fields.filter fun p => !(p.1 == key)

/-- The property read `v.key`, for the property names the program reads (none of them
an index). Arrays and strings have `length`; numbers and booleans have no own property. -/
def get (v : JsVal) (key : String) : Except JsThrow JsVal :=
  match v with
  | .undefined => .error (.typeError v key)
  | .null => .error (.typeError v key)
  | .obj fields => .ok (lookup fields key)
  | .arr xs => .ok (if key == "length" then .num (.fin xs.length) else .undefined)
  | .str s => .ok (if key == "length" then .num (.fin (jsLength s)) else .undefined)
  | .bool _ => .ok .undefined
  | .num _ => .ok .undefined

/-- The assignment `v.key = x` on the object `v`. -/
def assign (v : JsVal) (key : String) (x : JsVal) : JsVal :=
  match v with
  | .obj fields => .obj (setField fields key x)
  | other => other

/-- The statement `delete v.key`. -/
def delete (v : JsVal) (key : String) : JsVal :=
  match v with
  | .obj fields => .obj (deleteField fields key)
  | other => other

/-- The truthiness of a value, as tested by `if (v)`. -/
def truthy : JsVal → Bool
  | .undefined => false
  | .null => false
  | .bool b => b
  | .num (.fin q) => !(q == 0)
  | .num .nan => false
  | .num _ => true
  | .str s => !(s == "")
  | .arr _ => true
  | .obj _ => true

/-- The conversion `ToNumber`. On strings, arrays and objects the language parses the
string form of the value; that conversion is the parameter `coerce`. -/
def toNumber (coerce : JsVal → JsNum) : JsVal → JsNum
  | .undefined => .nan
  | .null => .fin 0
  | .bool b => if b then .fin 1 else .fin 0
  | .num x => x
  | v => coerce v

mutual
/-- The tree of `JSON.stringify(v)`; `none` when the result is `undefined`. -/
def stringify : JsVal → Option Json
  | .undefined => none
  | .null => some .null
  | .bool b => some (.bool b)
  | .num (.fin q) => some (.num q)
  | .num _ => some .null
  | .str s => some (.str s)
  | .arr xs => some (.arr (stringifyElems xs))
  | .obj fields => some (.obj (stringifyFields fields))
/-- The elements of a stringified array: `undefined` is written `null`. -/
def stringifyElems : List JsVal → List Json
  | [] => []
  | x :: xs => (stringify x).getD .null :: stringifyElems xs
/-- The members of a stringified object: a property whose value is `undefined` is left out. -/
def stringifyFields : List (String × JsVal) → List (String × Json)
  | [] => []
  | (k, v) :: rest =>
    match stringify v with
    | none => stringifyFields rest
    | some j => (k, j) :: stringifyFields rest
end

/-- The member `key` of a JSON object; `none` when the text has no such key. -/
def Json.member (j : Json) (key : String) : Option Json :=
  match j with
  | .obj fields => fields.lookup key
  | _ => none

/-! ## Constants -/

def MAX_MIXIN : Nat := 10
def MIN_MIXIN : Nat := 2
def DEFAULT_UNLOCK_HEIGHT : Nat := 0
def DEFAULT_FEE : Nat := 10
def DEFAULT_CHARACTER_FEE : Nat := 10

namespace err
def nonNeg : String := " must be a non-negative integer"
def hex : String := " must be a hexadecimal string"
def opts : String := "opts must be object"
def hex64 : String := " must be 64-digit hexadecimal string"
def addr : String := " must be 34-character string beginning with a `s` or a `t`"
def raw : String := " must be a raw amount of SCT (X)"
def trans : String := " must be a transfer object \x7b address: 34-character string beginning with a `s` or a `t`, amount: raw amount of SCT (X), message: optional string \x7d"
def arr : String := " must be an array"
def str : String := " must be a string"
end err

/-! ## Utilities -/

/-- Whether `typeof obj` is `object`: true of `null`, of arrays and of objects. -/
def isObject : JsVal → Bool
  | .null => true
  | .arr _ => true
  | .obj _ => true
  | _ => false

/-- Whether `typeof obj` is `undefined`. -/
def isUndefined : JsVal → Bool
  | .undefined => true
  | _ => false

/-- Whether `typeof obj` is `string`. -/
def isString : JsVal → Bool
  | .str _ => true
  | _ => false

/-- The test `Number.isInteger(n) && n >= 0`. -/
def isNonNegative : JsVal → Bool
  | .num x => x.isInteger && JsNum.ge x (.fin 0)
  | _ => false

/-- The address test: a string, `str.length === 98`, and `str.slice(0, 3)` is `ccx`. -/
def isAddress : JsVal → Bool
  | .str s => jsLength s == 98 && (utf16 s).take 3 == utf16 "ccx"
  | _ => false

/-- A code unit in the class `[0-9a-fA-F]`. -/
def isHexUnit (u : Nat) : Bool :=
  (48 ≤ u && u ≤ 57) || (97 ≤ u && u ≤ 102) || (65 ≤ u && u ≤ 70)

/-- The test of a string against `^[0-9a-fA-F]` repeated 64 times up to `$`, the end of input. -/
def isHex64String : JsVal → Bool
  | .str s => (utf16 s).length == 64 && (utf16 s).all isHexUnit
  | _ => false

/-- The test that a string has no code unit outside `[0-9a-fA-F]`. -/
def isHexString : JsVal → Bool
  | .str s => !((utf16 s).any fun u => !isHexUnit u)
  | _ => false

/-- The transfer test; it reads `obj.address` before it knows that `obj` is not `null`. -/
def isTransfer (obj : JsVal) : Except JsThrow Bool :=
  if !isObject obj then .ok false else
  match get obj "address" with
  | .error e => .error e
  | .ok address =>
    if !isAddress address then .ok false else
    match get obj "amount" with
    | .error e => .error e
    | .ok amount =>
      if !isNonNegative amount then .ok false else
      match get obj "message" with
      | .error e => .error e
      | .ok message =>
        if !isUndefined message && !isString message then .ok false else .ok true

/-- The loop of `arrayTest`: the index at which it stops, the first element failing
`test` or the length of the array. -/
def arrayTestLoop (test : JsVal → Except JsThrow Bool) : List JsVal → Nat → Except JsThrow Nat
  | [], i => .ok i
  | x :: rest, i =>
    match test x with
    | .error e => .error e
    | .ok false => .ok i
    | .ok true => arrayTestLoop test rest (i + 1)

/-- The array test: false of a non-array, else whether the loop ran to the end. -/
def arrayTest (arr : JsVal) (test : JsVal → Except JsThrow Bool) : Except JsThrow Bool :=
  match arr with
  | .arr xs =>
    match arrayTestLoop test xs 0 with
    | .error e => .error e
    | .ok i => if i < xs.length then .ok false else .ok true
  | _ => .ok false

/-! ## Effects -/

/-- The port of the client configuration a request goes to. -/
inductive Port where
  | walletRpcPort
  | daemonRpcPort

/-- The body of a request. `rpc method params` is the text that `buildRpc` concatenates,
the envelope with `jsonrpc` 2.0, `id` 0, the method, and `JSON.stringify(params)`;
`raw params` is the text `JSON.stringify(params)` alone. -/
inductive Post where
  | rpc (method : String) (params : Option Json)
  | raw (params : Option Json)

/-- One call of `request`: the port, the body and the path. -/
structure Request where
  port : Port
  post : Post
  path : String

/-- The value a promise is rejected with. -/
inductive Reason where
  /-- The call `reject(v)`. -/
  | val (v : JsVal)
  /-- The exception `e` thrown inside the promise executor. -/
  | thrown (e : JsThrow)
  /-- The call `reject(error.message)` for the caught exception `e`. -/
  | message (e : JsThrow)

/-- One effect of a call. -/
inductive Event where
  | reject (reason : Reason)
  | resolve (v : JsVal)
  | request (r : Request)
  /-- An exception that escapes an event handler. -/
  | uncaught (e : JsThrow)

/-- The options object after a call, and the effects of the call in program order. -/
structure Run where
  opts : JsVal
  events : List Event

/-- The text of a JSON-RPC request. -/
def buildRpc (method : String) (params : JsVal) : Post :=
  .rpc method (stringify params)

/-- The wallet call: one request to the wallet port at `/json_rpc`. -/
def wrpc (method : String) (params : JsVal) : Event :=
  .request ⟨.walletRpcPort, buildRpc method params, "/json_rpc"⟩

/-- The daemon call: one request to the daemon port at `/json_rpc`. -/
def drpc (method : String) (params : JsVal) : Event :=
  .request ⟨.daemonRpcPort, buildRpc method params, "/json_rpc"⟩

/-- The daemon handler call: the bare parameters sent to `path`. -/
def hrpc (params : JsVal) (path : String) : Event :=
  .request ⟨.daemonRpcPort, .raw (stringify params), path⟩

/-- The executor calls `reject(reason)` with a string and ends. -/
def rejectWith (opts : JsVal) (reason : String) : Run :=
  ⟨opts, [.reject (.val (.str reason))]⟩

/-- An evaluation inside a promise executor that may throw: the exception ends the
executor and rejects the promise. -/
def tryRead {α : Type} (opts : JsVal) (r : Except JsThrow α) (k : α → Run) : Run :=
  match r with
  | .error e => ⟨opts, [.reject (.thrown e)]⟩
  | .ok a => k a

/-! ## Wallet service operations taking an address -/

/-- The executor of `getBalance`. -/
def getBalance (address : JsVal) : List Event :=
  if isUndefined address || !isAddress address then [.reject (.val (.str ("address" ++ err.addr)))]
  else [wrpc "getBalance" (.obj [("address", address)])]

/-- The executor of `deleteAddress`: the `if` has no `else`, the call of `wrpc` follows it. -/
def deleteAddress (address : JsVal) : List Event :=
  (if isUndefined address || !isAddress address then [.reject (.val (.str ("address" ++ err.addr)))]
   else [])
  ++ [wrpc "deleteAddress" (.obj [("address", address)])]

/-- The executor of `getSpendKeys`. -/
def getSpendKeys (address : JsVal) : List Event :=
  if isUndefined address || !isAddress address then [.reject (.val (.str ("address" ++ err.addr)))]
  else [wrpc "getSpendKeys" (.obj [("address", address)])]

/-! ## Sending -/

/-- The summand of one transfer in the default fee: `message.length` times the character
fee when the transfer has a message, else 0. -/
def messageFee (coerce : JsVal → JsNum) (transfer : JsVal) : Except JsThrow JsNum :=
  match get transfer "message" with
  | .error e => .error e
  | .ok message =>
    if !isUndefined message then
      match get message "length" with
      | .error e => .error e
      | .ok len => .ok (JsNum.mul (toNumber coerce len) (.fin DEFAULT_CHARACTER_FEE))
    else .ok (.fin 0)

/-- The `forEach` that adds the summand of every transfer to `opts.fee`: the fee reached,
and the exception that stopped the loop, if any. -/
def feeLoop (coerce : JsVal → JsNum) : List JsVal → JsNum → JsNum × Option JsThrow
  | [], fee => (fee, none)
  | transfer :: rest, fee =>
    match messageFee coerce transfer with
    | .error e => (fee, some e)
    | .ok x => feeLoop coerce rest (JsNum.add fee x)

/-- The block `if (isUndefined(opts.fee)) ...` of `send` and `sendTransaction`: the options
object with the default fee, and the exception thrown on the way, if any. -/
def defaultFee (coerce : JsVal → JsNum) (opts : JsVal) : JsVal × Option JsThrow :=
  match get opts "fee" with
  | .error e => (opts, some e)
  | .ok fee =>
    if isUndefined fee then
      let opts1 := assign opts "fee" (.num (.fin DEFAULT_FEE))
      match get opts1 "transfers" with
      | .error e => (opts1, some e)
      | .ok (.arr transfers) =>
        let r := feeLoop coerce transfers (.fin DEFAULT_FEE)
        (assign opts1 "fee" (.num r.1), r.2)
      | .ok other => (opts1, some (.notCallable other "forEach"))
    else (opts, none)

/-- A step of a promise executor that changes the options object and may throw on the
way: the exception ends the executor and rejects the promise. -/
def tryStep (r : JsVal × Option JsThrow) (k : JsVal → Run) : Run :=
  match r.2 with
  | some e => ⟨r.1, [.reject (.thrown e)]⟩
  | none => k r.1

/-- The statement `if (isUndefined(opts.key)) opts.key = d`. -/
def setDefault (opts : JsVal) (key : String) (d : JsVal) : Except JsThrow JsVal :=
  match get opts key with
  | .error e => .error e
  | .ok v => if isUndefined v then .ok (assign opts key d) else .ok opts

/-- The statements `opts.new = opts.old; delete opts.old`. -/
def rename (opts : JsVal) (old new : String) : Except JsThrow JsVal :=
  match get opts old with
  | .error e => .error e
  | .ok v => .ok (delete (assign opts new v) old)

/-- The test `opts.mixIn >= MIN_MIXIN && opts.mixIn <= MAX_MIXIN`. -/
def mixInInRange (coerce : JsVal → JsNum) (mixIn : JsVal) : Bool :=
  JsNum.ge (toNumber coerce mixIn) (.fin MIN_MIXIN) && JsNum.le (toNumber coerce mixIn) (.fin MAX_MIXIN)

/-- The reason `MIN_MIXIN + " <= mixIn <= " + MAX_MIXIN`. -/
def mixInReason : String := toString MIN_MIXIN ++ " <= mixIn <= " ++ toString MAX_MIXIN

/-- The reason of a failed transfers test. -/
def transfersReason : String := "transfers" ++ err.arr ++ " of transfers each of which" ++ err.trans

/-- The reason of a failed addresses test. -/
def addressesReason : String := "addresses" ++ err.arr ++ " of addresses each of which" ++ err.addr

/-- The object literal that `send` passes to `wrpc`. -/
def transferParams (opts : JsVal) : Except JsThrow JsVal :=
  match get opts "transfers", get opts "mixIn", get opts "fee", get opts "unlockHeight",
    get opts "paymentId" with
  | .ok destinations, .ok mixin, .ok fee, .ok unlock_time, .ok payment_id =>
    .ok (.obj [
      ("destinations", destinations),
      ("mixin", mixin),
      ("fee", fee),
      ("unlock_time", unlock_time),
      ("payment_id", payment_id)])
  | .error e, _, _, _, _ => .error e
  | _, .error e, _, _, _ => .error e
  | _, _, .error e, _, _ => .error e
  | _, _, _, .error e, _ => .error e
  | _, _, _, _, .error e => .error e

/-- The executor of `send`. -/
def send (coerce : JsVal → JsNum) (opts : JsVal) : Run :=
  if !isObject opts then rejectWith opts err.opts else
  tryRead opts (get opts "transfers") fun transfers =>
  tryRead opts (if isUndefined transfers then .ok false else arrayTest transfers isTransfer) fun ok =>
  if !ok then rejectWith opts transfersReason else
  tryRead opts (get opts "paymentId") fun paymentId =>
  if !isUndefined paymentId && !isHex64String paymentId then rejectWith opts ("paymentId" ++ err.hex64) else
  tryRead opts (setDefault opts "mixIn" (.num (.fin MIN_MIXIN))) fun opts1 =>
  tryRead opts1 (get opts1 "mixIn") fun mixIn =>
  if !mixInInRange coerce mixIn then rejectWith opts1 mixInReason else
  tryRead opts1 (setDefault opts1 "unlockHeight" (.num (.fin DEFAULT_UNLOCK_HEIGHT))) fun opts2 =>
  tryRead opts2 (get opts2 "unlockHeight") fun unlockHeight =>
  if !isNonNegative unlockHeight then rejectWith opts2 ("unlockHeight" ++ err.nonNeg) else
  tryStep (defaultFee coerce opts2) fun opts3 =>
  tryRead opts3 (get opts3 "fee") fun fee =>
  if !isNonNegative fee then rejectWith opts3 ("fee" ++ err.raw) else
  tryRead opts3 (transferParams opts3) fun obj =>
  ⟨opts3, [wrpc "transfer" obj]⟩

/-- The validation chain shared by `sendTransaction` and `createDelayedTransaction`, from
the test of `opts` to the test of `opts.extra`; `k` is the rest of the executor. -/
def checkTransaction (opts : JsVal) (k : Run) : Run :=
  if !isObject opts then rejectWith opts err.opts else
  tryRead opts (get opts "transfers") fun transfers =>
  tryRead opts (if isUndefined transfers then .ok false else arrayTest transfers isTransfer) fun ok =>
  if !ok then rejectWith opts transfersReason else
  tryRead opts (get opts "addresses") fun addresses =>
  tryRead opts (arrayTest addresses fun a => .ok (isAddress a)) fun addressesOk =>
  if !isUndefined addresses && !addressesOk then rejectWith opts addressesReason else
  tryRead opts (get opts "changeAddress") fun changeAddress =>
  if !isUndefined changeAddress && !isAddress changeAddress then rejectWith opts ("changeAddress" ++ err.addr) else
  tryRead opts (get opts "paymentId") fun paymentId =>
  if !isUndefined paymentId && !isHex64String paymentId then rejectWith opts ("paymentId" ++ err.hex64) else
  tryRead opts (get opts "extra") fun extra =>
  if !isUndefined extra && !isString extra then rejectWith opts ("extra" ++ err.str) else
  k

/-- The steps shared by `sendTransaction` and `createDelayedTransaction`, from the default
of `mixIn` to the rename of `unlockHeight`; `k` is the rest, run on the renamed object. -/
def renameMixInUnlock (coerce : JsVal → JsNum) (opts : JsVal) (k : JsVal → Run) : Run :=
  tryRead opts (setDefault opts "mixIn" (.num (.fin MIN_MIXIN))) fun opts1 =>
  tryRead opts1 (get opts1 "mixIn") fun mixIn =>
  if !mixInInRange coerce mixIn then rejectWith opts1 mixInReason else
  tryRead opts1 (rename opts1 "mixIn" "anonymity") fun opts2 =>
  tryRead opts2 (setDefault opts2 "unlockHeight" (.num (.fin DEFAULT_UNLOCK_HEIGHT))) fun opts3 =>
  tryRead opts3 (get opts3 "unlockHeight") fun unlockHeight =>
  if !isNonNegative unlockHeight then rejectWith opts3 ("unlockHeight" ++ err.nonNeg) else
  tryRead opts3 (rename opts3 "unlockHeight" "unlockTime") k

/-- The executor of `sendTransaction`. -/
def sendTransaction (coerce : JsVal → JsNum) (opts : JsVal) : Run :=
  checkTransaction opts <|
  tryRead opts (rename opts "addresses" "sourceAddresses") fun opts0 =>
  renameMixInUnlock coerce opts0 fun opts4 =>
  tryStep (defaultFee coerce opts4) fun opts5 =>
  tryRead opts5 (get opts5 "fee") fun fee =>
  if !isNonNegative fee then rejectWith opts5 ("fee" ++ err.raw) else
  ⟨opts5, [wrpc "sendTransaction" opts5]⟩

/-- The statement `if (isUndefined(opts.fee)) opts.fee = DEFAULT_FEE * opts.transfers.length`
of `createDelayedTransaction`. -/
def flatFee (coerce : JsVal → JsNum) (opts : JsVal) : Except JsThrow JsVal :=
  match get opts "fee" with
  | .error e => .error e
  | .ok fee =>
    if isUndefined fee then
      match get opts "transfers" with
      | .error e => .error e
      | .ok transfers =>
        match get transfers "length" with
        | .error e => .error e
        | .ok len =>
          .ok (assign opts "fee" (.num (JsNum.mul (.fin DEFAULT_FEE) (toNumber coerce len))))
    else .ok opts

/-- The executor of `createDelayedTransaction`: `opts.addresses` is not renamed, and the
default fee is `DEFAULT_FEE * opts.transfers.length`. -/
def createDelayedTransaction (coerce : JsVal → JsNum) (opts : JsVal) : Run :=
  checkTransaction opts <|
  renameMixInUnlock coerce opts fun opts4 =>
  tryRead opts4 (flatFee coerce opts4) fun opts5 =>
  tryRead opts5 (get opts5 "fee") fun fee =>
  if !isNonNegative fee then rejectWith opts5 ("fee" ++ err.raw) else
  ⟨opts5, [wrpc "createDelayedTransaction" opts5]⟩

/-! ## Transaction queries -/

/-- The reason of a query that supplies neither `firstBlockIndex` nor `blockHash`. -/
def eitherReason : String := "either firstBlockIndex or blockHash is required"

/-- The validation chain shared, line for line, by `getTransactionHashes` and
`getTransactions`; `method` is the name of the remote procedure. -/
def transactionQuery (method : String) (opts : JsVal) : Run :=
  if !isObject opts then rejectWith opts err.opts else
  tryRead opts (get opts "blockCount") fun blockCount =>
  if !isNonNegative blockCount then rejectWith opts ("blockCount" ++ err.nonNeg) else
  tryRead opts (get opts "firstBlockIndex") fun firstBlockIndex =>
  tryRead opts (get opts "blockHash") fun blockHash =>
  if isUndefined firstBlockIndex && isUndefined blockHash then
    rejectWith opts eitherReason else
  if !isUndefined firstBlockIndex && !isNonNegative firstBlockIndex then
    rejectWith opts ("firstBlockIndex" ++ err.nonNeg) else
  if !isUndefined blockHash && !isHex64String blockHash then
    rejectWith opts ("blockHash" ++ err.hex64) else
  tryRead opts (get opts "paymentId") fun paymentId =>
  if !isUndefined paymentId && !isHex64String paymentId then
    rejectWith opts ("paymentId" ++ err.hex64) else
  tryRead opts (get opts "addresses") fun addresses =>
  tryRead opts (arrayTest addresses fun a => .ok (isAddress a)) fun addressesOk =>
  if !isUndefined addresses && !addressesOk then rejectWith opts addressesReason else
  ⟨opts, [wrpc method opts]⟩

/-- The executor of `getTransactionHashes`. -/
def getTransactionHashes (opts : JsVal) : Run :=
  transactionQuery "getTransactionHashes" opts

/-- The executor of `getTransactions`. -/
def getTransactions (opts : JsVal) : Run :=
  transactionQuery "getTransactions" opts

/-! ## Transport: the handler of the end of a response -/

/-- The handler of `end` in `request`. The argument is the outcome of
`JSON.parse(data.toString())`: the parsed value, or the message of the syntax error. -/
def onEnd (parsed : Except String JsVal) : List Event :=
  match parsed with
  | .error message => [.reject (.val (.str message))]
  | .ok data =>
    match get data "error" with
    | .error e => [.reject (.message e)]
    | .ok error =>
      if truthy error then
        match get error "message" with
        | .error e => [.reject (.message e)]
        | .ok message => [.reject (.val message)]
      else
        match get data "result" with
        | .error e => [.uncaught e]
        | .ok result => if truthy result then [.resolve result] else [.resolve data]

/-! ## Wallet messages -/

/-- The executor of `messages`. When `opts` is not an object the local variable is rebound
to an empty object and the `else if` chain, the request included, is skipped. The
assignment to the undeclared `obj` is an assignment to a global and is not modelled. -/
def messages (opts : JsVal) : Run :=
  if !isObject opts then ⟨opts, []⟩ else
  tryRead opts (get opts "firstTxId") fun firstTxId =>
  if !isUndefined firstTxId && !isNonNegative firstTxId then
    rejectWith opts ("firstTxId" ++ err.nonNeg) else
  tryRead opts (get opts "txLimit") fun txLimit =>
  if !isUndefined txLimit && !isNonNegative txLimit then
    rejectWith opts ("txLimit" ++ err.nonNeg) else
  ⟨opts, [wrpc "get_messages" (.obj [("first_tx_id", firstTxId), ("tx_limit", txLimit)])]⟩

/-! ## Daemon block template -/

/-- The executor of `blockTemplate`. -/
def blockTemplate (coerce : JsVal → JsNum) (opts : JsVal) : Run :=
  if !isObject opts then rejectWith opts err.opts else
  tryRead opts (get opts "address") fun address =>
  if !isAddress address then rejectWith opts ("address" ++ err.addr) else
  tryRead opts (get opts "reserveSize") fun reserveSize =>
  if !isNonNegative reserveSize || JsNum.gt (toNumber coerce reserveSize) (.fin 255) then
    rejectWith opts "0 <= reserveSize <= 255" else
  tryRead opts (get opts "address") fun wallet_address =>
  tryRead opts (get opts "reserveSize") fun reserve_size =>
  ⟨opts, [drpc "getblocktemplate" (.obj [("wallet_address", wallet_address),
    ("reserve_size", reserve_size)])]⟩

/-! ## The constructor -/

/-- The module a client sends its requests with. -/
inductive Protocol where
  | http
  | https
  deriving DecidableEq

/-- The fields that the constructor sets on `this`. -/
structure Client where
  protocol : Protocol
  host : String
  walletRpcPort : JsVal
  daemonRpcPort : JsVal
  timeout : JsVal

/-- What a `throw` raises: a value thrown by the program, or an exception of the language. -/
inductive Thrown where
  | val (v : JsVal)
  | err (e : JsThrow)

/-- A line terminator, the characters that `.` does not match in a regular expression:
line feed, carriage return, line separator and paragraph separator. -/
def isLineTerminator (c : Char) : Bool :=
  c.toNat == 10 || c.toNat == 13 || c.toNat == 8232 || c.toNat == 8233

/-- The match of a host against `^([^:]*):\/\/(.*)$`: the two groups, or `none` when
there is no match. The first group is the longest run of characters other than a colon;
it must be followed by `://`; the second group is the rest, which must reach the end of
the input and so holds no line terminator. -/
def hostMatch (host : String) : Option (String × String) :=
  match host.data.dropWhile fun c => c != ':' with
  | ':' :: '/' :: '/' :: rest =>
    if rest.all fun c => !isLineTerminator c then
      some (String.mk (host.data.takeWhile fun c => c != ':'), String.mk rest)
    else none
  | _ => none

/-- The constructor `SCT`, called with `new`: the client, or what the constructor throws.
With no match `parse` is `null` and reading `parse[1]` throws. -/
def newSCT (host walletRpcPort daemonRpcPort timeout : JsVal) : Except Thrown Client :=
  if !truthy host then .error (.val (.str "host required")) else
  match host with
  | .str h =>
    match hostMatch h with
    | none => .error (.err (.typeError .null "1"))
    | some parse =>
      if parse.1 == "http" then
        .ok ⟨.http, parse.2, walletRpcPort, daemonRpcPort,
          if truthy timeout then timeout else .num (.fin 5000)⟩
      else if parse.1 == "https" then
        .ok ⟨.https, parse.2, walletRpcPort, daemonRpcPort,
          if truthy timeout then timeout else .num (.fin 5000)⟩
      else .error (.val (.str "host must begin with http(s)://"))
  | other => .error (.err (.notCallable other "match"))

/-! ## Transport: the request -/

/-- The text that `buildRpc` concatenates around `params`, the text of
`JSON.stringify(params)`. -/
def buildRpcText (method params : String) : String :=
  "\x7b\"jsonrpc\":\"2.0\",\"id\":\"0\",\"method\":\"" ++ method ++ "\",\"params\":"
    ++ params ++ "\x7d"

/-- The options object that `request` passes to `protocol.request`, its two headers
flattened into fields. -/
structure RequestOptions where
  hostname : String
  port : JsVal
  method : String
  timeout : JsVal
  path : String
  contentType : String
  contentLength : Nat

/-- The options of `request` for the body `post`: `Content-Length` is `post.length`. -/
def requestOptions (host : String) (port timeout : JsVal) (post path : String) :
    RequestOptions :=
  ⟨host, port, "POST", timeout, path, "application/json", jsLength post⟩

/-! ## Vocabulary of the specification -/

/-- The serialized `params` of the request, for a call whose only effect is one JSON-RPC
request; `none` for every other call. -/
def params? (events : List Event) : Option Json :=
  match events with
  | [.request ⟨_, .rpc _ p, _⟩] => p
  | _ => none

/-- The call is accepted: its only effect is one request handed to the transport. -/
def accepted (events : List Event) : Prop :=
  ∃ q, events = [.request q]

/-- The call has one effect only, a rejection. -/
def rejects (events : List Event) : Prop :=
  ∃ r, events = [.reject r]

/-- The call does not reject with the reason of the transfers test. -/
def noTransfersReject (r : Run) : Prop :=
  Event.reject (.val (.str transfersReason)) ∉ r.events

/-- The length of the message of a transfer, a transfer without a message counting as 0. -/
def messageLength (transfer : JsVal) : Nat :=
  match get transfer "message" with
  | .ok (.str s) => jsLength s
  | _ => 0

/-- The default fee in the words of the specification: a base fee of 10 plus 10 per
character across all transfer messages. -/
def expectedFee (transfers : List JsVal) : Nat :=
  10 + 10 * (transfers.map messageLength).sum

/-- The elements of `opts.transfers`. -/
def transfersOf (fs : List (String × JsVal)) : List JsVal :=
  match lookup fs "transfers" with
  | .arr ts => ts
  | _ => []

/-- The names of the properties in a property list. -/
def keys (fs : List (String × JsVal)) : List String := fs.map Prod.fst

/-- The test of `opts.transfers` passes. -/
def transfersOk (transfers : JsVal) : Prop :=
  (if isUndefined transfers then .ok false else arrayTest transfers isTransfer) = .ok true

/-- An optional parameter passes its test: it is absent or `test` holds of it. -/
def optionalOk (test : JsVal → Bool) (v : JsVal) : Prop :=
  (!isUndefined v && !test v) = false

/-- The array of addresses passes: every element is an address. -/
def isAddressArray (v : JsVal) : Bool :=
  match arrayTest v fun a => .ok (isAddress a) with
  | .ok b => b
  | .error _ => false

/-- The value of `opts.mixIn` after its default. -/
def mixInOf (fs : List (String × JsVal)) : JsVal :=
  if isUndefined (lookup fs "mixIn") then .num (.fin MIN_MIXIN) else lookup fs "mixIn"

/-- The value of `opts.unlockHeight` after its default. -/
def unlockHeightOf (fs : List (String × JsVal)) : JsVal :=
  if isUndefined (lookup fs "unlockHeight") then .num (.fin DEFAULT_UNLOCK_HEIGHT)
  else lookup fs "unlockHeight"

/-- The checks on `mixIn`, `unlockHeight` and a supplied `fee` pass. -/
def laterOk (coerce : JsVal → JsNum) (fs : List (String × JsVal)) : Prop :=
  mixInInRange coerce (mixInOf fs) = true ∧
  isNonNegative (unlockHeightOf fs) = true ∧
  optionalOk isNonNegative (lookup fs "fee")

/-- All checks of `checkTransaction` pass. -/
def checkOk (fs : List (String × JsVal)) : Prop :=
  transfersOk (lookup fs "transfers") ∧
  optionalOk isAddressArray (lookup fs "addresses") ∧
  optionalOk isAddress (lookup fs "changeAddress") ∧
  optionalOk isHex64String (lookup fs "paymentId") ∧
  optionalOk isString (lookup fs "extra")

/-- All checks of `send` pass. -/
def sendOk (coerce : JsVal → JsNum) (fs : List (String × JsVal)) : Prop :=
  transfersOk (lookup fs "transfers") ∧
  optionalOk isHex64String (lookup fs "paymentId") ∧
  laterOk coerce fs

/-! ## Property lists after the steps of an executor

Closed forms of the options object along an executor, used in the proofs; the lemmas
`setDefault_obj`, `rename_obj`, `defaultFee_obj`, `flatFee_obj` and the `_cases` lemmas
of the operations prove that the executors compute them. -/

/-- The property list after `if (isUndefined(o.key)) o.key = d`. -/
def defaultField (fields : List (String × JsVal)) (key : String) (d : JsVal) :
    List (String × JsVal) :=
  if isUndefined (lookup fields key) then setField fields key d else fields

/-- The property list after `o.new = o.old; delete o.old`. -/
def renameField (fields : List (String × JsVal)) (old new : String) : List (String × JsVal) :=
  deleteField (setField fields new (lookup fields old)) old

/-- The property list after the defaults and renames of `renameMixInUnlock`. -/
def renamed (fs : List (String × JsVal)) : List (String × JsVal) :=
  renameField
    (defaultField
      (renameField (defaultField fs "mixIn" (.num (.fin MIN_MIXIN))) "mixIn" "anonymity")
      "unlockHeight" (.num (.fin DEFAULT_UNLOCK_HEIGHT)))
    "unlockHeight" "unlockTime"

/-- The property list after the default fee of `send` and `sendTransaction`, with the fee
in closed form; `defaultFee_obj` proves that the loop of `defaultFee` computes it. -/
def feeField (fs : List (String × JsVal)) : List (String × JsVal) :=
  if isUndefined (lookup fs "fee") then
    setField (setField fs "fee" (.num (.fin DEFAULT_FEE))) "fee"
      (.num (.fin (expectedFee (transfersOf fs))))
  else fs

/-- The property list after the default fee of `createDelayedTransaction`; `flatFee_obj`
proves that `flatFee` computes it. -/
def flatFeeField (fs : List (String × JsVal)) : List (String × JsVal) :=
  if isUndefined (lookup fs "fee") then
    setField fs "fee" (.num (.fin ((DEFAULT_FEE * (transfersOf fs).length : Nat) : Rat)))
  else fs

/-- The property list after an accepted `send`. -/
def sendFinal (fs : List (String × JsVal)) : List (String × JsVal) :=
  feeField (defaultField (defaultField fs "mixIn" (.num (.fin MIN_MIXIN)))
    "unlockHeight" (.num (.fin DEFAULT_UNLOCK_HEIGHT)))

/-- The property list after an accepted `sendTransaction`. -/
def sendTransactionFinal (fs : List (String × JsVal)) : List (String × JsVal) :=
  feeField (renamed (renameField fs "addresses" "sourceAddresses"))

/-- The property list after an accepted `createDelayedTransaction`. -/
def createDelayedTransactionFinal (fs : List (String × JsVal)) : List (String × JsVal) :=
  flatFeeField (renamed fs)

/-! ## Example values -/

/-- An address of the accepted form: `ccx` followed by 95 more characters. -/
def exampleAddress : String :=
  "ccx7Xd3NBbBiQNvv7vMLXmGMHyS8AVB6EhWoHo5EbGfR2Ki9pQnRTfEBt3YxYEVqpUCyJgvPjBYHp8N2yZwA7dKbXd3NBbBiQN"

/-- A string of 64 hexadecimal digits. -/
def exampleHash : String :=
  "0123456789abcdefABCDEF0123456789abcdefABCDEF0123456789abcdefABCD"

/-- Two valid transfers, with the messages `ab` and the empty string. -/
def exampleTransfers : List JsVal :=
  [.obj [("address", .str exampleAddress), ("amount", .num (.fin 1)), ("message", .str "ab")],
   .obj [("address", .str exampleAddress), ("amount", .num (.fin 1)), ("message", .str "")]]

/-- An options object for the renames: two transfers, one source address, `mixIn` 3 and
`unlockHeight` 5. -/
def exampleOptions : List (String × JsVal) :=
  [("transfers", .arr exampleTransfers), ("addresses", .arr [.str exampleAddress]),
   ("mixIn", .num (.fin 3)), ("unlockHeight", .num (.fin 5))]

/-- A transaction query that names both a first block and a block hash. -/
def exampleQuery : List (String × JsVal) :=
  [("blockCount", .num (.fin 1)), ("firstBlockIndex", .num (.fin 0)),
   ("blockHash", .str exampleHash)]

/-- A conversion to number that parses nothing: every string, array and object is `NaN`. -/
def noCoercion : JsVal → JsNum := fun _ => .nan

/-- The number of bytes of the UTF-8 encoding of a string. -/
def utf8Length (s : String) : Nat :=
  (s.data.map fun c =>
    if c.toNat < 128 then 1 else if c.toNat < 2048 then 2 else if c.toNat < 65536 then 3
    else 4).sum

/-- The text of `JSON.stringify` for the params of a `send` of one transfer of amount 1 to
`exampleAddress` with the message `é`, a character of two bytes in UTF-8. -/
def exampleParamsText : String :=
  "\x7b\"destinations\":[\x7b\"address\":\"" ++ exampleAddress
    ++ "\",\"amount\":1,\"message\":\"é\"\x7d],\"mixin\":2,\"fee\":20,\"unlock_time\":0\x7d"

/-- The body of the request of that `send`. -/
def examplePost : String := buildRpcText "transfer" exampleParamsText

/-- An options object with a `mixIn` out of range. -/
def exampleBadMixIn : List (String × JsVal) :=
  [("transfers", .arr exampleTransfers), ("addresses", .arr [.str exampleAddress]),
   ("mixIn", .num (.fin 11))]

/-- An options object with a `mixIn` of 5 and a negative `unlockHeight`. -/
def exampleBadUnlockHeight : List (String × JsVal) :=
  [("transfers", .arr exampleTransfers), ("mixIn", .num (.fin 5)),
   ("unlockHeight", .num (.fin (-1)))]

/-- A string of 34 characters beginning with `s`, the form that the reason text names. -/
def exampleLegacyAddress : String := "s123456789012345678901234567890123"

/-- The hexadecimal digits, in both cases. -/
def hexDigits : List Char := "0123456789abcdefABCDEF".data

/-- The UTF-16 code units of one character. -/
def utf16Units (c : Char) : List Nat :=
  if c.val.toNat < 65536 then [c.val.toNat]
  else [55296 + (c.val.toNat - 65536) / 1024, 56320 + (c.val.toNat - 65536) % 1024]

/-- The pattern of the specification, `^(http|https)://.+`, as a test: the host begins with
`http://` or `https://` and at least one character other than a line terminator follows. -/
def claimedHostPattern (h : String) : Bool :=
  match h.data with
  | 'h' :: 't' :: 't' :: 'p' :: ':' :: '/' :: '/' :: c :: _ => !isLineTerminator c
  | 'h' :: 't' :: 't' :: 'p' :: 's' :: ':' :: '/' :: '/' :: c :: _ => !isLineTerminator c
  | _ => false

/-- The value of `timeout || 5000`. -/
def timeoutOf (timeout : JsVal) : JsVal :=
  if truthy timeout then timeout else .num (.fin 5000)

/-- The call does not reject with the reason of the fee test. -/
def noFeeReject (r : Run) : Prop :=
  Event.reject (.val (.str ("fee" ++ err.raw))) ∉ r.events

/-! ## Lemmas on property lists -/

theorem lookup_nil (k : String) : lookup [] k = .undefined := rfl

theorem lookup_cons (k' : String) (x : JsVal) (rest : List (String × JsVal)) (k : String) :
    lookup ((k', x) :: rest) k = if k = k' then x else lookup rest k := by
  unfold lookup
  by_cases h : k = k'
  · subst h; simp [List.lookup]
  · have : (k == k') = false := by simpa using h
    simp [List.lookup, this, h]

@[simp] theorem lookup_setField_self (fs : List (String × JsVal)) (k : String) (v : JsVal) :
    lookup (setField fs k v) k = v := by
  induction fs with
  | nil => simp [setField, lookup_cons]
  | cons p rest ih =>
    obtain ⟨k', x⟩ := p
    by_cases h : k' = k
    · subst h; simp [setField, lookup_cons]
    · have h' : ¬ k = k' := fun e => h e.symm
      simp [setField, h, h', lookup_cons, ih]

theorem lookup_setField_ne (fs : List (String × JsVal)) (k k' : String) (v : JsVal)
    (hne : k' ≠ k) : lookup (setField fs k v) k' = lookup fs k' := by
  induction fs with
  | nil => simp [setField, lookup_cons, hne, lookup_nil]
  | cons p rest ih =>
    obtain ⟨k0, x⟩ := p
    by_cases h : k0 = k
    · subst h; simp [setField, lookup_cons, hne]
    · simp [setField, h, lookup_cons, ih]

@[simp] theorem lookup_deleteField_self (fs : List (String × JsVal)) (k : String) :
    lookup (deleteField fs k) k = .undefined := by
  induction fs with
  | nil => rfl
  | cons p rest ih =>
    obtain ⟨k0, x⟩ := p
    by_cases h : k0 = k
    · subst h; simpa [deleteField] using ih
    · have h' : ¬ k = k0 := fun e => h e.symm
      simp only [deleteField] at ih
      simp [deleteField, h, h', List.filter_cons, lookup_cons, ih]

theorem lookup_deleteField_ne (fs : List (String × JsVal)) (k k' : String)
    (hne : k' ≠ k) : lookup (deleteField fs k) k' = lookup fs k' := by
  induction fs with
  | nil => rfl
  | cons p rest ih =>
    obtain ⟨k0, x⟩ := p
    simp only [deleteField] at ih
    by_cases h : k0 = k
    · subst h; simp [deleteField, List.filter_cons, lookup_cons, hne, ih]
    · simp [deleteField, h, List.filter_cons, lookup_cons, ih]

/-! ## Lemmas on the executors -/

@[simp] theorem get_obj (fs : List (String × JsVal)) (k : String) :
    get (.obj fs) k = .ok (lookup fs k) := rfl

@[simp] theorem tryRead_ok {α : Type} (o : JsVal) (a : α) (k : α → Run) :
    tryRead o (.ok a) k = k a := rfl

@[simp] theorem tryRead_error {α : Type} (o : JsVal) (e : JsThrow) (k : α → Run) :
    tryRead o (.error e) k = ⟨o, [.reject (.thrown e)]⟩ := rfl

theorem arrayTestLoop_le (test : JsVal → Except JsThrow Bool) (xs : List JsVal) (i j : Nat)
    (h : arrayTestLoop test xs i = .ok j) : i ≤ j ∧ j ≤ i + xs.length := by
  induction xs generalizing i with
  | nil => simp [arrayTestLoop] at h; omega
  | cons x rest ih =>
    simp only [arrayTestLoop] at h
    split at h
    · cases h
    · simp at h; simp; omega
    · have := ih _ h; simp; omega

theorem arrayTestLoop_all (test : JsVal → Except JsThrow Bool) (xs : List JsVal) (i : Nat)
    (h : arrayTestLoop test xs i = .ok (i + xs.length)) : ∀ x ∈ xs, test x = .ok true := by
  induction xs generalizing i with
  | nil => simp
  | cons x rest ih =>
    simp only [arrayTestLoop] at h
    split at h
    · cases h
    · simp at h
    · rename_i hx
      intro y hy
      rcases List.mem_cons.mp hy with rfl | hy
      · exact hx
      · refine ih (i + 1) ?_ y hy
        rw [h]; simp; omega

theorem arrayTest_true (test : JsVal → Except JsThrow Bool) (v : JsVal)
    (h : arrayTest v test = .ok true) : ∃ xs, v = .arr xs ∧ ∀ x ∈ xs, test x = .ok true := by
  cases v <;> simp [arrayTest] at h
  rename_i xs
  refine ⟨xs, rfl, ?_⟩
  split at h
  · cases h
  · rename_i i hi
    split at h
    · cases h
    · have := arrayTestLoop_le test xs 0 i hi
      have hi2 : i = 0 + xs.length := by omega
      exact arrayTestLoop_all test xs 0 (hi2 ▸ hi)

theorem arrayTestLoop_of_all (test : JsVal → Except JsThrow Bool) (xs : List JsVal) (i : Nat)
    (h : ∀ x ∈ xs, test x = .ok true) : arrayTestLoop test xs i = .ok (i + xs.length) := by
  induction xs generalizing i with
  | nil => simp [arrayTestLoop]
  | cons x rest ih =>
    simp only [arrayTestLoop]
    rw [h x (List.mem_cons_self _ _)]
    simp only
    rw [ih (i + 1) (fun y hy => h y (List.mem_cons_of_mem _ hy))]
    simp; omega

theorem arrayTest_of_all (test : JsVal → Except JsThrow Bool) (xs : List JsVal)
    (h : ∀ x ∈ xs, test x = .ok true) : arrayTest (.arr xs) test = .ok true := by
  simp [arrayTest, arrayTestLoop_of_all test xs 0 h]

@[simp] theorem setDefault_obj (fs : List (String × JsVal)) (k : String) (d : JsVal) :
    setDefault (.obj fs) k d = .ok (.obj (defaultField fs k d)) := by
  simp only [setDefault, get_obj, defaultField, assign]
  split <;> rfl

@[simp] theorem rename_obj (fs : List (String × JsVal)) (old new : String) :
    rename (.obj fs) old new = .ok (.obj (renameField fs old new)) := rfl

theorem lookup_defaultField_self (fs : List (String × JsVal)) (k : String) (d : JsVal) :
    lookup (defaultField fs k d) k = if isUndefined (lookup fs k) then d else lookup fs k := by
  unfold defaultField
  split <;> simp

theorem lookup_defaultField_ne (fs : List (String × JsVal)) (k k' : String) (d : JsVal)
    (hne : k' ≠ k) : lookup (defaultField fs k d) k' = lookup fs k' := by
  unfold defaultField
  split
  · exact lookup_setField_ne fs k k' d hne
  · rfl

theorem lookup_renameField_old (fs : List (String × JsVal)) (old new : String) :
    lookup (renameField fs old new) old = .undefined := by
  simp [renameField]

theorem lookup_renameField_new (fs : List (String × JsVal)) (old new : String)
    (hne : new ≠ old) : lookup (renameField fs old new) new = lookup fs old := by
  simp [renameField, lookup_deleteField_ne _ _ _ hne]

theorem lookup_renameField_ne (fs : List (String × JsVal)) (old new k : String)
    (h1 : k ≠ old) (h2 : k ≠ new) : lookup (renameField fs old new) k = lookup fs k := by
  simp [renameField, lookup_deleteField_ne _ _ _ h1, lookup_setField_ne _ _ _ _ h2]

theorem lookup_stringifyFields (fs : List (String × JsVal)) (k : String) (j : Json)
    (h : stringify (lookup fs k) = some j) : (stringifyFields fs).lookup k = some j := by
  induction fs with
  | nil => simp [lookup_nil, stringify] at h
  | cons p rest ih =>
    obtain ⟨k0, x⟩ := p
    rw [lookup_cons] at h
    by_cases hk : k = k0
    · subst hk
      simp only [if_true] at h
      simp [stringifyFields, h, List.lookup]
    · simp only [hk, if_false] at h
      have hb : (k == k0) = false := by simpa using hk
      simp only [stringifyFields]
      split
      · exact ih h
      · simp [List.lookup, hb, ih h]

theorem isNonNegative_natCast (n : Nat) : isNonNegative (.num (.fin (n : Rat))) = true := by
  simp [isNonNegative, JsNum.isInteger, JsNum.ge, JsNum.le]

theorem isTransfer_message (t : JsVal) (h : isTransfer t = .ok true) :
    get t "message" = .ok .undefined ∨ ∃ s, get t "message" = .ok (.str s) := by
  unfold isTransfer at h
  split at h
  · cases h
  · split at h
    · cases h
    · split at h
      · cases h
      · split at h
        · cases h
        · split at h
          · cases h
          · split at h
            · cases h
            · rename_i _ m hm
              rw [hm]
              cases m <;> simp [isUndefined, isString] at h ⊢

theorem messageFee_of_isTransfer (coerce : JsVal → JsNum) (t : JsVal)
    (h : isTransfer t = .ok true) :
    messageFee coerce t = .ok (.fin ((10 * messageLength t : Nat) : Rat)) := by
  rcases isTransfer_message t h with hm | ⟨s, hm⟩
  · simp [messageFee, messageLength, hm, isUndefined]
  · simp only [messageFee, messageLength, hm]
    simp [isUndefined, get, toNumber, JsNum.mul, DEFAULT_CHARACTER_FEE]
    ring

theorem feeLoop_of_isTransfer (coerce : JsVal → JsNum) (ts : List JsVal)
    (h : ∀ t ∈ ts, isTransfer t = .ok true) (n : Nat) :
    feeLoop coerce ts (.fin (n : Rat))
      = (.fin ((n + 10 * (ts.map messageLength).sum : Nat) : Rat), none) := by
  induction ts generalizing n with
  | nil => simp [feeLoop]
  | cons t rest ih =>
    have ht := messageFee_of_isTransfer coerce t (h t (List.mem_cons_self _ _))
    have hrest := ih (fun x hx => h x (List.mem_cons_of_mem _ hx)) (n + 10 * messageLength t)
    simp only [feeLoop, ht, JsNum.add]
    rw [show ((n : Rat) + ((10 * messageLength t : Nat) : Rat))
        = ((n + 10 * messageLength t : Nat) : Rat) by push_cast; ring]
    rw [hrest]
    simp [List.map_cons, List.sum_cons, Nat.mul_add, Nat.add_assoc]

theorem defaultFee_of_valid (coerce : JsVal → JsNum) (fs : List (String × JsVal))
    (ts : List JsVal) (hfee : lookup fs "fee" = .undefined)
    (hts : lookup fs "transfers" = .arr ts) (hall : ∀ t ∈ ts, isTransfer t = .ok true) :
    defaultFee coerce (.obj fs)
      = (.obj (setField (setField fs "fee" (.num (.fin DEFAULT_FEE))) "fee"
          (.num (.fin (expectedFee ts : Rat)))), none) := by
  have hl := feeLoop_of_isTransfer coerce ts hall DEFAULT_FEE
  simp only [defaultFee, get_obj, hfee, isUndefined, if_true, assign,
    lookup_setField_ne _ _ _ _ (show "transfers" ≠ "fee" by decide), hts, hl]
  rfl

@[simp] theorem transferParams_obj (fs : List (String × JsVal)) :
    transferParams (.obj fs) = .ok (.obj [
      ("destinations", lookup fs "transfers"),
      ("mixin", lookup fs "mixIn"),
      ("fee", lookup fs "fee"),
      ("unlock_time", lookup fs "unlockHeight"),
      ("payment_id", lookup fs "paymentId")]) := rfl

@[simp] theorem params_wrpc_obj (method : String) (fs : List (String × JsVal)) :
    params? [wrpc method (.obj fs)] = some (.obj (stringifyFields fs)) := rfl

theorem tryStep_none (o : JsVal) (k : JsVal → Run) : tryStep (o, none) k = k o := rfl

theorem transfers_gate (opts : JsVal) (X : Except JsThrow Bool) (k : Run)
    (hX : X ≠ .ok true) :
    ∃ r, (tryRead opts X fun ok => if !ok then rejectWith opts transfersReason else k).events
      = [.reject r] := by
  match X, hX with
  | .error e, _ => exact ⟨_, rfl⟩
  | .ok false, _ => exact ⟨_, rfl⟩
  | .ok true, h => exact absurd rfl h

theorem transfers_test_fails (fields : List (String × JsVal))
    (h : lookup fields "transfers" = .undefined ∨
      (∀ xs, lookup fields "transfers" ≠ .arr xs) ∨
      ∃ xs, lookup fields "transfers" = .arr xs ∧ ∃ x ∈ xs, isTransfer x ≠ .ok true) :
    (if isUndefined (lookup fields "transfers") then .ok false
      else arrayTest (lookup fields "transfers") isTransfer) ≠ .ok true := by
  intro hc
  split at hc
  · cases hc
  · obtain ⟨xs, hxs, hall⟩ := arrayTest_true _ _ hc
    rcases h with h | h | ⟨ys, hys, x, hx, hbad⟩
    · rw [h] at hxs; cases hxs
    · exact h xs hxs
    · rw [hys] at hxs
      cases hxs
      exact hbad (hall x hx)

theorem rejects_not_accepted {ev : List Event} (h : rejects ev) : ¬ accepted ev := by
  rintro ⟨q, hq⟩
  obtain ⟨r, hr⟩ := h
  rw [hr] at hq
  cases hq

theorem transfersOk_iff (v : JsVal) :
    transfersOk v ↔ ∃ ts, v = .arr ts ∧ ∀ t ∈ ts, isTransfer t = .ok true := by
  unfold transfersOk
  constructor
  · intro h
    split at h
    · cases h
    · exact arrayTest_true _ _ h
  · rintro ⟨ts, rfl, hall⟩
    simp [isUndefined, arrayTest_of_all _ _ hall]

theorem transfersOf_eq (fs : List (String × JsVal)) (ts : List JsVal)
    (h : lookup fs "transfers" = .arr ts) : transfersOf fs = ts := by
  simp [transfersOf, h]

theorem lookup_renamed_mixIn (fs : List (String × JsVal)) :
    lookup (defaultField fs "mixIn" (.num (.fin MIN_MIXIN))) "mixIn" = mixInOf fs := by
  rw [lookup_defaultField_self]; rfl

theorem lookup_renamed_unlockHeight (fs : List (String × JsVal)) :
    lookup (defaultField
      (renameField (defaultField fs "mixIn" (.num (.fin MIN_MIXIN))) "mixIn" "anonymity")
      "unlockHeight" (.num (.fin DEFAULT_UNLOCK_HEIGHT))) "unlockHeight" = unlockHeightOf fs := by
  rw [lookup_defaultField_self,
    lookup_renameField_ne _ _ _ _ (by decide) (by decide),
    lookup_defaultField_ne _ _ _ _ (by decide)]
  rfl

theorem renameMixInUnlock_cases (coerce : JsVal → JsNum) (fs : List (String × JsVal))
    (k : JsVal → Run) :
    (mixInInRange coerce (mixInOf fs) = true ∧ isNonNegative (unlockHeightOf fs) = true ∧
      renameMixInUnlock coerce (.obj fs) k = k (.obj (renamed fs))) ∨
    (¬ (mixInInRange coerce (mixInOf fs) = true ∧ isNonNegative (unlockHeightOf fs) = true) ∧
      rejects (renameMixInUnlock coerce (.obj fs) k).events) := by
  unfold renameMixInUnlock
  simp only [setDefault_obj, tryRead_ok, get_obj, rename_obj, lookup_renamed_mixIn,
    lookup_renamed_unlockHeight]
  cases h1 : mixInInRange coerce (mixInOf fs) with
  | false => exact Or.inr ⟨by simp, ⟨_, rfl⟩⟩
  | true =>
    cases h2 : isNonNegative (unlockHeightOf fs) with
    | false => exact Or.inr ⟨by simp, ⟨_, rfl⟩⟩
    | true => exact Or.inl ⟨rfl, rfl, rfl⟩

theorem lookup_renamed_ne (fs : List (String × JsVal)) (k : String)
    (h1 : k ≠ "mixIn") (h2 : k ≠ "anonymity") (h3 : k ≠ "unlockHeight") (h4 : k ≠ "unlockTime") :
    lookup (renamed fs) k = lookup fs k := by
  unfold renamed
  rw [lookup_renameField_ne _ _ _ _ h3 h4, lookup_defaultField_ne _ _ _ _ h3,
    lookup_renameField_ne _ _ _ _ h1 h2, lookup_defaultField_ne _ _ _ _ h1]

theorem defaultFee_obj (coerce : JsVal → JsNum) (fs : List (String × JsVal))
    (h : transfersOk (lookup fs "transfers")) :
    defaultFee coerce (.obj fs) = (.obj (feeField fs), none) := by
  obtain ⟨ts, hts, hall⟩ := (transfersOk_iff _).mp h
  unfold feeField
  by_cases hfee : isUndefined (lookup fs "fee") = true
  · have hu : lookup fs "fee" = .undefined := by
      cases hv : lookup fs "fee" <;> simp [hv, isUndefined] at hfee ⊢
    rw [if_pos hfee, transfersOf_eq fs ts hts]
    exact defaultFee_of_valid coerce fs ts hu hts hall
  · rw [if_neg hfee]
    simp only [defaultFee, get_obj, hfee]
    rfl

theorem flatFee_obj (coerce : JsVal → JsNum) (fs : List (String × JsVal))
    (h : transfersOk (lookup fs "transfers")) :
    flatFee coerce (.obj fs) = .ok (.obj (flatFeeField fs)) := by
  obtain ⟨ts, hts, -⟩ := (transfersOk_iff _).mp h
  unfold flatFeeField
  by_cases hfee : isUndefined (lookup fs "fee") = true
  · rw [if_pos hfee, transfersOf_eq fs ts hts]
    simp [flatFee, get_obj, hfee, hts, get, toNumber, JsNum.mul, assign]
  · rw [if_neg hfee]
    simp only [flatFee, get_obj, hfee]
    rfl

theorem isNonNegative_feeField (fs : List (String × JsVal)) :
    isNonNegative (lookup (feeField fs) "fee") = true
      ↔ optionalOk isNonNegative (lookup fs "fee") := by
  unfold feeField optionalOk
  by_cases hfee : isUndefined (lookup fs "fee") = true
  · simp [hfee, isNonNegative_natCast]
  · simp [hfee]

theorem isNonNegative_flatFeeField (fs : List (String × JsVal)) :
    isNonNegative (lookup (flatFeeField fs) "fee") = true
      ↔ optionalOk isNonNegative (lookup fs "fee") := by
  unfold flatFeeField optionalOk
  by_cases hfee : isUndefined (lookup fs "fee") = true
  · simp only [hfee, if_true, lookup_setField_self, isNonNegative_natCast]
    simp
  · simp [hfee]

theorem transfers_test_cases (v : JsVal) :
    ((if isUndefined v then .ok false else arrayTest v isTransfer) = .ok true) ∨
    (¬ transfersOk v ∧ ∀ (o : JsVal) (k : Run),
      rejects (tryRead o (if isUndefined v then .ok false else arrayTest v isTransfer)
        fun ok => if !ok then rejectWith o transfersReason else k).events) := by
  cases hX : (if isUndefined v then (Except.ok false : Except JsThrow Bool)
      else arrayTest v isTransfer) with
  | error e => exact Or.inr ⟨by simp [transfersOk, hX], fun _ _ => ⟨_, rfl⟩⟩
  | ok b =>
    cases b with
    | false => exact Or.inr ⟨by simp [transfersOk, hX], fun _ _ => ⟨_, rfl⟩⟩
    | true => exact Or.inl rfl

theorem send_cases (coerce : JsVal → JsNum) (fs : List (String × JsVal)) :
    (sendOk coerce fs ∧ send coerce (.obj fs) = ⟨.obj (sendFinal fs), [wrpc "transfer" (.obj [
      ("destinations", lookup (sendFinal fs) "transfers"),
      ("mixin", lookup (sendFinal fs) "mixIn"),
      ("fee", lookup (sendFinal fs) "fee"),
      ("unlock_time", lookup (sendFinal fs) "unlockHeight"),
      ("payment_id", lookup (sendFinal fs) "paymentId")])]⟩) ∨
    (¬ sendOk coerce fs ∧ rejects (send coerce (.obj fs)).events) := by
  unfold send sendOk laterOk
  simp only [isObject, get_obj, tryRead_ok, setDefault_obj, Bool.not_true, Bool.false_eq_true,
    if_false]
  rcases transfers_test_cases (lookup fs "transfers") with hX | ⟨hX, hr⟩
  · have hT : transfersOk (lookup fs "transfers") := hX
    rw [hX]
    simp only [tryRead_ok, Bool.not_true, Bool.false_eq_true, if_false]
    by_cases h1 : (!isUndefined (lookup fs "paymentId") && !isHex64String (lookup fs "paymentId")) = true
    · rw [if_pos h1]; exact Or.inr ⟨by simp [optionalOk, h1], ⟨_, rfl⟩⟩
    · rw [if_neg h1, lookup_renamed_mixIn]
      cases h2 : mixInInRange coerce (mixInOf fs) with
      | false => exact Or.inr ⟨by simp, ⟨_, rfl⟩⟩
      | true =>
        have hu : lookup (defaultField (defaultField fs "mixIn" (.num (.fin MIN_MIXIN)))
            "unlockHeight" (.num (.fin DEFAULT_UNLOCK_HEIGHT))) "unlockHeight" = unlockHeightOf fs := by
          rw [lookup_defaultField_self, lookup_defaultField_ne _ _ _ _ (by decide)]; rfl
        rw [hu]
        cases h3 : isNonNegative (unlockHeightOf fs) with
        | false => exact Or.inr ⟨by simp, ⟨_, rfl⟩⟩
        | true =>
          have ht : lookup (defaultField (defaultField fs "mixIn" (.num (.fin MIN_MIXIN)))
              "unlockHeight" (.num (.fin DEFAULT_UNLOCK_HEIGHT))) "transfers" = lookup fs "transfers" := by
            rw [lookup_defaultField_ne _ _ _ _ (by decide), lookup_defaultField_ne _ _ _ _ (by decide)]
          have hf : lookup (defaultField (defaultField fs "mixIn" (.num (.fin MIN_MIXIN)))
              "unlockHeight" (.num (.fin DEFAULT_UNLOCK_HEIGHT))) "fee" = lookup fs "fee" := by
            rw [lookup_defaultField_ne _ _ _ _ (by decide), lookup_defaultField_ne _ _ _ _ (by decide)]
          simp only [Bool.not_true, Bool.false_eq_true, if_false]
          rw [defaultFee_obj coerce _ (ht ▸ hT), tryStep_none]
          simp only [get_obj, tryRead_ok, transferParams_obj]
          have hfee := isNonNegative_feeField (defaultField (defaultField fs "mixIn"
            (.num (.fin MIN_MIXIN))) "unlockHeight" (.num (.fin DEFAULT_UNLOCK_HEIGHT)))
          rw [hf] at hfee
          cases h4 : isNonNegative (lookup (feeField (defaultField (defaultField fs "mixIn"
            (.num (.fin MIN_MIXIN))) "unlockHeight" (.num (.fin DEFAULT_UNLOCK_HEIGHT)))) "fee") with
          | false =>
            refine Or.inr ⟨?_, ⟨_, rfl⟩⟩
            rw [← hfee, h4]; simp
          | true =>
            refine Or.inl ⟨⟨hT, by simpa [optionalOk] using h1, trivial, trivial, hfee.mp h4⟩, rfl⟩
  · exact Or.inr ⟨fun h => hX h.1, hr _ _⟩

theorem arrayTestLoop_pure (f : JsVal → Bool) (xs : List JsVal) (i : Nat) :
    ∃ j, arrayTestLoop (fun a => .ok (f a)) xs i = .ok j := by
  induction xs generalizing i with
  | nil => exact ⟨i, rfl⟩
  | cons x rest ih =>
    simp only [arrayTestLoop]
    cases f x
    · exact ⟨i, rfl⟩
    · exact ih (i + 1)

theorem arrayTest_pure (f : JsVal → Bool) (v : JsVal) :
    arrayTest v (fun a => .ok (f a)) = .ok (match arrayTest v fun a => .ok (f a) with
      | .ok b => b
      | .error _ => false) := by
  cases v <;> try rfl
  rename_i xs
  obtain ⟨j, hj⟩ := arrayTestLoop_pure f xs 0
  simp only [arrayTest, hj]
  split <;> rfl

theorem checkTransaction_cases (fs : List (String × JsVal)) (k : Run) :
    (checkOk fs ∧ checkTransaction (.obj fs) k = k) ∨
    (¬ checkOk fs ∧ rejects (checkTransaction (.obj fs) k).events) := by
  unfold checkTransaction checkOk transfersOk optionalOk
  simp only [isObject, get_obj, tryRead_ok, Bool.not_true, Bool.false_eq_true, if_false]
  cases hX : (if isUndefined (lookup fs "transfers") then (Except.ok false : Except JsThrow Bool)
      else arrayTest (lookup fs "transfers") isTransfer) with
  | error e => exact Or.inr ⟨by simp, ⟨_, rfl⟩⟩
  | ok b =>
    cases b with
    | false => exact Or.inr ⟨by simp, ⟨_, rfl⟩⟩
    | true =>
      rw [arrayTest_pure isAddress (lookup fs "addresses")]
      simp only [tryRead_ok, Bool.not_true, Bool.false_eq_true, if_false, true_and]
      show (_ ∧ _) ∨ _
      by_cases h1 : (!isUndefined (lookup fs "addresses") && !isAddressArray (lookup fs "addresses")) = true
      · refine Or.inr ⟨by simp [h1], ?_⟩
        simp only [isAddressArray] at h1
        rw [if_pos h1]
        exact ⟨_, rfl⟩
      · have h1' := h1
        simp only [isAddressArray] at h1
        rw [if_neg h1]
        by_cases h2 : (!isUndefined (lookup fs "changeAddress") && !isAddress (lookup fs "changeAddress")) = true
        · rw [if_pos h2]; exact Or.inr ⟨by simp [h2], ⟨_, rfl⟩⟩
        · rw [if_neg h2]
          by_cases h3 : (!isUndefined (lookup fs "paymentId") && !isHex64String (lookup fs "paymentId")) = true
          · rw [if_pos h3]; exact Or.inr ⟨by simp [h3], ⟨_, rfl⟩⟩
          · rw [if_neg h3]
            by_cases h4 : (!isUndefined (lookup fs "extra") && !isString (lookup fs "extra")) = true
            · rw [if_pos h4]; exact Or.inr ⟨by simp [h4], ⟨_, rfl⟩⟩
            · rw [if_neg h4]
              exact Or.inl ⟨⟨by simpa using h1', by simpa using h2, by simpa using h3,
                by simpa using h4⟩, rfl⟩

theorem checkTransaction_ok (fs : List (String × JsVal)) (h : checkOk fs) (k : Run) :
    checkTransaction (.obj fs) k = k := by
  rcases checkTransaction_cases fs k with ⟨-, he⟩ | ⟨hn, -⟩
  · exact he
  · exact absurd h hn

theorem checkTransaction_reject (fs : List (String × JsVal)) (h : ¬ checkOk fs) (k : Run) :
    rejects (checkTransaction (.obj fs) k).events := by
  rcases checkTransaction_cases fs k with ⟨hc, -⟩ | ⟨-, hr⟩
  · exact absurd hc h
  · exact hr

theorem renameMixInUnlock_ok (coerce : JsVal → JsNum) (fs : List (String × JsVal))
    (h1 : mixInInRange coerce (mixInOf fs) = true) (h2 : isNonNegative (unlockHeightOf fs) = true)
    (k : JsVal → Run) : renameMixInUnlock coerce (.obj fs) k = k (.obj (renamed fs)) := by
  rcases renameMixInUnlock_cases coerce fs k with ⟨-, -, he⟩ | ⟨hn, -⟩
  · exact he
  · exact absurd ⟨h1, h2⟩ hn

theorem renameMixInUnlock_reject (coerce : JsVal → JsNum) (fs : List (String × JsVal))
    (h : ¬ (mixInInRange coerce (mixInOf fs) = true ∧ isNonNegative (unlockHeightOf fs) = true))
    (k : JsVal → Run) : rejects (renameMixInUnlock coerce (.obj fs) k).events := by
  rcases renameMixInUnlock_cases coerce fs k with ⟨h1, h2, -⟩ | ⟨-, hr⟩
  · exact absurd ⟨h1, h2⟩ h
  · exact hr

theorem mixInOf_renameField_addresses (fs : List (String × JsVal)) :
    mixInOf (renameField fs "addresses" "sourceAddresses") = mixInOf fs := by
  unfold mixInOf
  rw [lookup_renameField_ne _ _ _ _ (by decide) (by decide)]

theorem unlockHeightOf_renameField_addresses (fs : List (String × JsVal)) :
    unlockHeightOf (renameField fs "addresses" "sourceAddresses") = unlockHeightOf fs := by
  unfold unlockHeightOf
  rw [lookup_renameField_ne _ _ _ _ (by decide) (by decide)]

theorem sendTransaction_cases (coerce : JsVal → JsNum) (fs : List (String × JsVal)) :
    ((checkOk fs ∧ laterOk coerce fs) ∧ sendTransaction coerce (.obj fs)
      = ⟨.obj (sendTransactionFinal fs), [wrpc "sendTransaction" (.obj (sendTransactionFinal fs))]⟩) ∨
    (¬ (checkOk fs ∧ laterOk coerce fs) ∧ rejects (sendTransaction coerce (.obj fs)).events) := by
  unfold sendTransaction laterOk
  by_cases hc : checkOk fs
  · simp only [checkTransaction_ok fs hc, rename_obj, tryRead_ok]
    by_cases hm : mixInInRange coerce (mixInOf fs) = true ∧ isNonNegative (unlockHeightOf fs) = true
    · rw [renameMixInUnlock_ok coerce _ (by rw [mixInOf_renameField_addresses]; exact hm.1)
        (by rw [unlockHeightOf_renameField_addresses]; exact hm.2)]
      have ht : lookup (renamed (renameField fs "addresses" "sourceAddresses")) "transfers"
          = lookup fs "transfers" := by
        rw [lookup_renamed_ne _ _ (by decide) (by decide) (by decide) (by decide),
          lookup_renameField_ne _ _ _ _ (by decide) (by decide)]
      have hf : lookup (renamed (renameField fs "addresses" "sourceAddresses")) "fee"
          = lookup fs "fee" := by
        rw [lookup_renamed_ne _ _ (by decide) (by decide) (by decide) (by decide),
          lookup_renameField_ne _ _ _ _ (by decide) (by decide)]
      rw [defaultFee_obj coerce _ (ht ▸ hc.1), tryStep_none]
      simp only [get_obj, tryRead_ok]
      have hfee := isNonNegative_feeField (renamed (renameField fs "addresses" "sourceAddresses"))
      rw [hf] at hfee
      cases h4 : isNonNegative (lookup (feeField (renamed (renameField fs "addresses"
          "sourceAddresses"))) "fee") with
      | false =>
        refine Or.inr ⟨?_, ⟨_, rfl⟩⟩
        rw [← hfee, h4]; simp
      | true => exact Or.inl ⟨⟨hc, hm.1, hm.2, hfee.mp h4⟩, rfl⟩
    · refine Or.inr ⟨fun h => hm ⟨h.2.1, h.2.2.1⟩, ?_⟩
      exact renameMixInUnlock_reject coerce _
        (by rw [mixInOf_renameField_addresses, unlockHeightOf_renameField_addresses]; exact hm) _
  · exact Or.inr ⟨fun h => hc h.1, checkTransaction_reject fs hc _⟩

theorem createDelayedTransaction_cases (coerce : JsVal → JsNum) (fs : List (String × JsVal)) :
    ((checkOk fs ∧ laterOk coerce fs) ∧ createDelayedTransaction coerce (.obj fs)
      = ⟨.obj (createDelayedTransactionFinal fs),
          [wrpc "createDelayedTransaction" (.obj (createDelayedTransactionFinal fs))]⟩) ∨
    (¬ (checkOk fs ∧ laterOk coerce fs) ∧
      rejects (createDelayedTransaction coerce (.obj fs)).events) := by
  unfold createDelayedTransaction laterOk
  by_cases hc : checkOk fs
  · simp only [checkTransaction_ok fs hc]
    by_cases hm : mixInInRange coerce (mixInOf fs) = true ∧ isNonNegative (unlockHeightOf fs) = true
    · rw [renameMixInUnlock_ok coerce _ hm.1 hm.2]
      have ht : lookup (renamed fs) "transfers" = lookup fs "transfers" :=
        lookup_renamed_ne _ _ (by decide) (by decide) (by decide) (by decide)
      have hf : lookup (renamed fs) "fee" = lookup fs "fee" :=
        lookup_renamed_ne _ _ (by decide) (by decide) (by decide) (by decide)
      rw [flatFee_obj coerce _ (ht ▸ hc.1)]
      simp only [get_obj, tryRead_ok]
      have hfee := isNonNegative_flatFeeField (renamed fs)
      rw [hf] at hfee
      cases h4 : isNonNegative (lookup (flatFeeField (renamed fs)) "fee") with
      | false =>
        refine Or.inr ⟨?_, ⟨_, rfl⟩⟩
        rw [← hfee, h4]; simp
      | true => exact Or.inl ⟨⟨hc, hm.1, hm.2, hfee.mp h4⟩, rfl⟩
    · exact Or.inr ⟨fun h => hm ⟨h.2.1, h.2.2.1⟩, renameMixInUnlock_reject coerce _ hm _⟩
  · exact Or.inr ⟨fun h => hc h.1, checkTransaction_reject fs hc _⟩

theorem stringifyFields_lookup_of_not_mem (fs : List (String × JsVal)) (k : String)
    (h : k ∉ keys fs) : (stringifyFields fs).lookup k = none := by
  induction fs with
  | nil => rfl
  | cons p rest ih =>
    obtain ⟨k0, x⟩ := p
    simp only [keys, List.map_cons, List.mem_cons, not_or] at h
    have hb : (k == k0) = false := by simpa using h.1
    simp only [stringifyFields]
    split
    · exact ih h.2
    · simp [List.lookup, hb, ih h.2]

theorem stringifyFields_lookup (fs : List (String × JsVal)) (k : String)
    (hnd : (keys fs).Nodup) : (stringifyFields fs).lookup k = stringify (lookup fs k) := by
  induction fs with
  | nil => rfl
  | cons p rest ih =>
    obtain ⟨k0, x⟩ := p
    simp only [keys, List.map_cons, List.nodup_cons] at hnd
    rw [lookup_cons]
    by_cases hk : k = k0
    · subst hk
      simp only [if_true, stringifyFields]
      split
      · rename_i hx
        rw [hx]
        exact stringifyFields_lookup_of_not_mem rest k hnd.1
      · rename_i j hx
        simp [List.lookup, hx]
    · have hb : (k == k0) = false := by simpa using hk
      simp only [hk, if_false, stringifyFields]
      split
      · exact ih hnd.2
      · simp [List.lookup, hb, ih hnd.2]

theorem keys_setField (fs : List (String × JsVal)) (k : String) (v : JsVal) :
    keys (setField fs k v) = if k ∈ keys fs then keys fs else keys fs ++ [k] := by
  induction fs with
  | nil => simp [setField, keys]
  | cons p rest ih =>
    obtain ⟨k0, x⟩ := p
    simp only [keys] at ih
    by_cases h : k0 = k
    · subst h; simp [setField, keys]
    · have h' : ¬ k = k0 := fun e => h e.symm
      simp only [setField, keys, List.map_cons, List.mem_cons, h', false_or]
      simp only [beq_iff_eq, h, if_false, List.map_cons, ih]
      split <;> simp

theorem nodup_setField (fs : List (String × JsVal)) (k : String) (v : JsVal)
    (h : (keys fs).Nodup) : (keys (setField fs k v)).Nodup := by
  rw [keys_setField]
  split
  · exact h
  · rename_i hk
    exact List.Nodup.append h (List.nodup_singleton k)
      (by intro a ha hb; rw [List.mem_singleton] at hb; exact hk (hb ▸ ha))

theorem nodup_deleteField (fs : List (String × JsVal)) (k : String)
    (h : (keys fs).Nodup) : (keys (deleteField fs k)).Nodup := by
  unfold keys deleteField
  exact List.Nodup.sublist (List.Sublist.map _ (List.filter_sublist _)) h

theorem nodup_defaultField (fs : List (String × JsVal)) (k : String) (d : JsVal)
    (h : (keys fs).Nodup) : (keys (defaultField fs k d)).Nodup := by
  unfold defaultField
  split
  · exact nodup_setField _ _ _ h
  · exact h

theorem nodup_renameField (fs : List (String × JsVal)) (old new : String)
    (h : (keys fs).Nodup) : (keys (renameField fs old new)).Nodup :=
  nodup_deleteField _ _ (nodup_setField _ _ _ h)

theorem nodup_renamed (fs : List (String × JsVal)) (h : (keys fs).Nodup) :
    (keys (renamed fs)).Nodup :=
  nodup_renameField _ _ _ (nodup_defaultField _ _ _ (nodup_renameField _ _ _
    (nodup_defaultField _ _ _ h)))

theorem nodup_feeField (fs : List (String × JsVal)) (h : (keys fs).Nodup) :
    (keys (feeField fs)).Nodup := by
  unfold feeField
  split
  · exact nodup_setField _ _ _ (nodup_setField _ _ _ h)
  · exact h

theorem nodup_flatFeeField (fs : List (String × JsVal)) (h : (keys fs).Nodup) :
    (keys (flatFeeField fs)).Nodup := by
  unfold flatFeeField
  split
  · exact nodup_setField _ _ _ h
  · exact h

theorem lookup_feeField_default (fs : List (String × JsVal)) (h : lookup fs "fee" = .undefined) :
    lookup (feeField fs) "fee" = .num (.fin (expectedFee (transfersOf fs))) := by
  simp [feeField, h, isUndefined]

theorem transfersOf_congr (fs gs : List (String × JsVal))
    (h : lookup fs "transfers" = lookup gs "transfers") : transfersOf fs = transfersOf gs := by
  simp [transfersOf, h]

theorem nodup_sendTransactionFinal (fs : List (String × JsVal)) (h : (keys fs).Nodup) :
    (keys (sendTransactionFinal fs)).Nodup :=
  nodup_feeField _ (nodup_renamed _ (nodup_renameField _ _ _ h))

theorem lookup_feeField_ne (fs : List (String × JsVal)) (k : String) (h : k ≠ "fee") :
    lookup (feeField fs) k = lookup fs k := by
  unfold feeField
  split
  · rw [lookup_setField_ne _ _ _ _ h, lookup_setField_ne _ _ _ _ h]
  · rfl

theorem lookup_flatFeeField_ne (fs : List (String × JsVal)) (k : String) (h : k ≠ "fee") :
    lookup (flatFeeField fs) k = lookup fs k := by
  unfold flatFeeField
  split
  · rw [lookup_setField_ne _ _ _ _ h]
  · rfl

theorem lookup_renamed_anonymity (fs : List (String × JsVal)) :
    lookup (renamed fs) "anonymity" = mixInOf fs := by
  unfold renamed
  rw [lookup_renameField_ne _ _ _ _ (by decide) (by decide),
    lookup_defaultField_ne _ _ _ _ (by decide),
    lookup_renameField_new _ _ _ (by decide), lookup_renamed_mixIn]

theorem lookup_renamed_unlockTime (fs : List (String × JsVal)) :
    lookup (renamed fs) "unlockTime" = unlockHeightOf fs := by
  unfold renamed
  rw [lookup_renameField_new _ _ _ (by decide), lookup_renamed_unlockHeight]

theorem lookup_renamed_mixIn_deleted (fs : List (String × JsVal)) :
    lookup (renamed fs) "mixIn" = .undefined := by
  unfold renamed
  rw [lookup_renameField_ne _ _ _ _ (by decide) (by decide),
    lookup_defaultField_ne _ _ _ _ (by decide), lookup_renameField_old]

theorem lookup_renamed_unlockHeight_deleted (fs : List (String × JsVal)) :
    lookup (renamed fs) "unlockHeight" = .undefined := by
  unfold renamed
  rw [lookup_renameField_old]

theorem accepted_send_iff (coerce : JsVal → JsNum) (fs : List (String × JsVal)) :
    accepted (send coerce (.obj fs)).events ↔ sendOk coerce fs := by
  rcases send_cases coerce fs with ⟨hok, he⟩ | ⟨hn, hr⟩
  · rw [he]; exact ⟨fun _ => hok, fun _ => ⟨_, rfl⟩⟩
  · exact ⟨fun h => absurd h (rejects_not_accepted hr), fun h => absurd h hn⟩

theorem accepted_sendTransaction_iff (coerce : JsVal → JsNum) (fs : List (String × JsVal)) :
    accepted (sendTransaction coerce (.obj fs)).events ↔ (checkOk fs ∧ laterOk coerce fs) := by
  rcases sendTransaction_cases coerce fs with ⟨hok, he⟩ | ⟨hn, hr⟩
  · rw [he]; exact ⟨fun _ => hok, fun _ => ⟨_, rfl⟩⟩
  · exact ⟨fun h => absurd h (rejects_not_accepted hr), fun h => absurd h hn⟩

theorem accepted_createDelayedTransaction_iff (coerce : JsVal → JsNum)
    (fs : List (String × JsVal)) :
    accepted (createDelayedTransaction coerce (.obj fs)).events
      ↔ (checkOk fs ∧ laterOk coerce fs) := by
  rcases createDelayedTransaction_cases coerce fs with ⟨hok, he⟩ | ⟨hn, hr⟩
  · rw [he]; exact ⟨fun _ => hok, fun _ => ⟨_, rfl⟩⟩
  · exact ⟨fun h => absurd h (rejects_not_accepted hr), fun h => absurd h hn⟩

theorem mixInInRange_int (coerce : JsVal → JsNum) (m : Int) :
    mixInInRange coerce (.num (.fin m)) = true ↔ 2 ≤ m ∧ m ≤ 10 := by
  simp only [mixInInRange, toNumber, JsNum.ge, JsNum.le, Bool.and_eq_true, decide_eq_true_eq,
    MIN_MIXIN, MAX_MIXIN]
  constructor
  · rintro ⟨h1, h2⟩
    exact ⟨by exact_mod_cast h1, by exact_mod_cast h2⟩
  · rintro ⟨h1, h2⟩
    exact ⟨by exact_mod_cast h1, by exact_mod_cast h2⟩

theorem mixInOf_absent (fs : List (String × JsVal)) (h : lookup fs "mixIn" = .undefined) :
    mixInOf fs = .num (.fin MIN_MIXIN) := by
  simp [mixInOf, h, isUndefined]

theorem mixInOf_setField_int (fs : List (String × JsVal)) (m : Int) :
    mixInOf (setField fs "mixIn" (.num (.fin m))) = .num (.fin m) := by
  simp [mixInOf, isUndefined]

theorem laterOk_setField_mixIn (coerce : JsVal → JsNum) (fs : List (String × JsVal)) (m : Int)
    (hok : laterOk coerce fs) :
    laterOk coerce (setField fs "mixIn" (.num (.fin m))) ↔ 2 ≤ m ∧ m ≤ 10 := by
  unfold laterOk at hok ⊢
  unfold unlockHeightOf at hok ⊢
  rw [mixInOf_setField_int, mixInInRange_int, lookup_setField_ne _ _ _ _ (by decide),
    lookup_setField_ne _ _ _ _ (by decide)]
  exact ⟨fun h => h.1, fun h => ⟨h, hok.2.1, hok.2.2⟩⟩

theorem checkOk_setField_mixIn (fs : List (String × JsVal)) (v : JsVal) :
    checkOk (setField fs "mixIn" v) ↔ checkOk fs := by
  unfold checkOk
  rw [lookup_setField_ne _ _ _ _ (by decide), lookup_setField_ne _ _ _ _ (by decide),
    lookup_setField_ne _ _ _ _ (by decide), lookup_setField_ne _ _ _ _ (by decide),
    lookup_setField_ne _ _ _ _ (by decide)]

theorem lookup_sendFinal_mixIn (fs : List (String × JsVal)) :
    lookup (sendFinal fs) "mixIn" = mixInOf fs := by
  unfold sendFinal
  rw [lookup_feeField_ne _ _ (by decide), lookup_defaultField_ne _ _ _ _ (by decide),
    lookup_renamed_mixIn]

theorem noTransfersReject_rejectWith (o : JsVal) (s : String) (h : s ≠ transfersReason) :
    noTransfersReject (rejectWith o s) := by
  simp only [noTransfersReject, rejectWith, List.mem_singleton]
  intro he
  injection he with he
  injection he with he
  injection he with he
  exact h he.symm

theorem noTransfersReject_tryRead {α : Type} (o : JsVal) (X : Except JsThrow α) (k : α → Run)
    (h : ∀ a, noTransfersReject (k a)) : noTransfersReject (tryRead o X k) := by
  cases X with
  | error e =>
    simp only [noTransfersReject, tryRead, List.mem_singleton]
    intro he
    injection he with he
    cases he
  | ok a => exact h a

theorem noTransfersReject_tryStep (r : JsVal × Option JsThrow) (k : JsVal → Run)
    (h : ∀ a, noTransfersReject (k a)) : noTransfersReject (tryStep r k) := by
  obtain ⟨o, t⟩ := r
  cases t with
  | some e =>
    simp only [noTransfersReject, tryStep, List.mem_singleton]
    intro he
    injection he with he
    cases he
  | none => exact h o

theorem noTransfersReject_ite (c : Prop) [Decidable c] (a b : Run)
    (ha : noTransfersReject a) (hb : noTransfersReject b) :
    noTransfersReject (if c then a else b) := by
  split
  · exact ha
  · exact hb

theorem noTransfersReject_wrpc (o : JsVal) (method : String) (params : JsVal) :
    noTransfersReject ⟨o, [wrpc method params]⟩ := by
  simp [noTransfersReject, wrpc]

theorem noTransfersReject_renameMixInUnlock (coerce : JsVal → JsNum) (o : JsVal)
    (k : JsVal → Run) (h : ∀ a, noTransfersReject (k a)) :
    noTransfersReject (renameMixInUnlock coerce o k) := by
  unfold renameMixInUnlock
  refine noTransfersReject_tryRead _ _ _ fun o1 => noTransfersReject_tryRead _ _ _ fun m => ?_
  refine noTransfersReject_ite _ _ _ (noTransfersReject_rejectWith _ _ (by decide)) ?_
  refine noTransfersReject_tryRead _ _ _ fun o2 => noTransfersReject_tryRead _ _ _ fun o3 =>
    noTransfersReject_tryRead _ _ _ fun u => ?_
  refine noTransfersReject_ite _ _ _ (noTransfersReject_rejectWith _ _ (by decide)) ?_
  exact noTransfersReject_tryRead _ _ _ h

theorem transfers_test_empty :
    (if isUndefined (.arr []) then .ok false else arrayTest (.arr []) isTransfer) = .ok true :=
  rfl

theorem noTransfersReject_checkTransaction (fs : List (String × JsVal)) (k : Run)
    (hts : lookup fs "transfers" = .arr []) (h : noTransfersReject k) :
    noTransfersReject (checkTransaction (.obj fs) k) := by
  unfold checkTransaction
  simp only [get_obj, hts, tryRead_ok, transfers_test_empty, Bool.not_true, Bool.false_eq_true,
    if_false]
  refine noTransfersReject_ite _ _ _ (noTransfersReject_rejectWith _ _ (by decide)) ?_
  refine noTransfersReject_tryRead _ _ _ fun ok => ?_
  refine noTransfersReject_ite _ _ _ (noTransfersReject_rejectWith _ _ (by decide)) ?_
  refine noTransfersReject_ite _ _ _ (noTransfersReject_rejectWith _ _ (by decide)) ?_
  refine noTransfersReject_ite _ _ _ (noTransfersReject_rejectWith _ _ (by decide)) ?_
  exact noTransfersReject_ite _ _ _ (noTransfersReject_rejectWith _ _ (by decide)) h

theorem noTransfersReject_send (coerce : JsVal → JsNum) (fs : List (String × JsVal))
    (hts : lookup fs "transfers" = .arr []) : noTransfersReject (send coerce (.obj fs)) := by
  unfold send
  simp only [get_obj, hts, tryRead_ok, transfers_test_empty, Bool.not_true, Bool.false_eq_true,
    if_false]
  refine noTransfersReject_ite _ _ _ (noTransfersReject_rejectWith _ _ (by decide)) ?_
  refine noTransfersReject_ite _ _ _ (noTransfersReject_rejectWith _ _ (by decide)) ?_
  refine noTransfersReject_tryRead _ _ _ fun o1 => noTransfersReject_tryRead _ _ _ fun m => ?_
  refine noTransfersReject_ite _ _ _ (noTransfersReject_rejectWith _ _ (by decide)) ?_
  refine noTransfersReject_tryRead _ _ _ fun o2 => noTransfersReject_tryRead _ _ _ fun u => ?_
  refine noTransfersReject_ite _ _ _ (noTransfersReject_rejectWith _ _ (by decide)) ?_
  refine noTransfersReject_tryStep _ _ fun o3 => noTransfersReject_tryRead _ _ _ fun fee => ?_
  refine noTransfersReject_ite _ _ _ (noTransfersReject_rejectWith _ _ (by decide)) ?_
  exact noTransfersReject_tryRead _ _ _ fun obj => noTransfersReject_wrpc _ _ _

theorem noTransfersReject_sendTransaction (coerce : JsVal → JsNum) (fs : List (String × JsVal))
    (hts : lookup fs "transfers" = .arr []) :
    noTransfersReject (sendTransaction coerce (.obj fs)) := by
  unfold sendTransaction
  refine noTransfersReject_checkTransaction fs _ hts ?_
  refine noTransfersReject_tryRead _ _ _ fun o0 =>
    noTransfersReject_renameMixInUnlock _ _ _ fun o4 =>
    noTransfersReject_tryStep _ _ fun o5 => noTransfersReject_tryRead _ _ _ fun fee => ?_
  exact noTransfersReject_ite _ _ _ (noTransfersReject_rejectWith _ _ (by decide))
    (noTransfersReject_wrpc _ _ _)

theorem noTransfersReject_createDelayedTransaction (coerce : JsVal → JsNum)
    (fs : List (String × JsVal)) (hts : lookup fs "transfers" = .arr []) :
    noTransfersReject (createDelayedTransaction coerce (.obj fs)) := by
  unfold createDelayedTransaction
  refine noTransfersReject_checkTransaction fs _ hts ?_
  refine noTransfersReject_renameMixInUnlock _ _ _ fun o4 =>
    noTransfersReject_tryRead _ _ _ fun o5 => noTransfersReject_tryRead _ _ _ fun fee => ?_
  exact noTransfersReject_ite _ _ _ (noTransfersReject_rejectWith _ _ (by decide))
    (noTransfersReject_wrpc _ _ _)

theorem transfersOk_empty : transfersOk (.arr []) := rfl

theorem transactionQuery_neither (method : String) (fs : List (String × JsVal))
    (hbc : isNonNegative (lookup fs "blockCount") = true)
    (h1 : isUndefined (lookup fs "firstBlockIndex") = true)
    (h2 : isUndefined (lookup fs "blockHash") = true) :
    (transactionQuery method (.obj fs)).events = [.reject (.val (.str eitherReason))] := by
  unfold transactionQuery
  simp only [isObject, get_obj, tryRead_ok]
  rw [hbc, h1, h2]
  rfl

theorem transactionQuery_accepts (method : String) (fs : List (String × JsVal))
    (hbc : isNonNegative (lookup fs "blockCount") = true)
    (hone : ¬ (isUndefined (lookup fs "firstBlockIndex") = true ∧
      isUndefined (lookup fs "blockHash") = true))
    (h1 : optionalOk isNonNegative (lookup fs "firstBlockIndex"))
    (h2 : optionalOk isHex64String (lookup fs "blockHash"))
    (h3 : optionalOk isHex64String (lookup fs "paymentId"))
    (h4 : optionalOk isAddressArray (lookup fs "addresses")) :
    (transactionQuery method (.obj fs)).events = [wrpc method (.obj fs)] := by
  unfold optionalOk at h1 h2 h3 h4
  have hone' : (isUndefined (lookup fs "firstBlockIndex") && isUndefined (lookup fs "blockHash"))
      = false := by
    simpa using hone
  unfold isAddressArray at h4
  unfold transactionQuery
  simp only [isObject, get_obj, tryRead_ok, hbc, hone', h1, h2, h3, Bool.not_true,
    Bool.false_eq_true, if_false]
  rw [arrayTest_pure isAddress (lookup fs "addresses")]
  simp only [tryRead_ok, h4, Bool.false_eq_true, if_false]

theorem isNonNegative_iff (v : JsVal) :
    isNonNegative v = true ↔ ∃ n : Nat, v = .num (.fin n) := by
  constructor
  · intro h
    cases v with
    | num x =>
      cases x with
      | fin q =>
        simp only [isNonNegative, JsNum.isInteger, JsNum.ge, JsNum.le, Bool.and_eq_true,
          beq_iff_eq, decide_eq_true_eq] at h
        obtain ⟨hden, hpos⟩ := h
        have hq : (q.num : Rat) = q := Rat.coe_int_num_of_den_eq_one hden
        have hnum : 0 ≤ q.num := by
          have : (0 : Rat) ≤ (q.num : Rat) := by rw [hq]; exact hpos
          exact_mod_cast this
        refine ⟨q.num.toNat, ?_⟩
        congr 2
        rw [← hq]
        have : ((q.num.toNat : Int) : Rat) = (q.num : Rat) := by
          rw [Int.toNat_of_nonneg hnum]
        exact_mod_cast this.symm
      | nan => simp [isNonNegative, JsNum.isInteger] at h
      | posInf => simp [isNonNegative, JsNum.isInteger] at h
      | negInf => simp [isNonNegative, JsNum.isInteger] at h
    | undefined => simp [isNonNegative] at h
    | null => simp [isNonNegative] at h
    | bool b => simp [isNonNegative] at h
    | str s => simp [isNonNegative] at h
    | arr xs => simp [isNonNegative] at h
    | obj fs => simp [isNonNegative] at h
  · rintro ⟨n, rfl⟩
    exact isNonNegative_natCast n

theorem blockTemplate_cases (coerce : JsVal → JsNum) (fs : List (String × JsVal))
    (haddr : isAddress (lookup fs "address") = true) :
    ((isNonNegative (lookup fs "reserveSize") = true ∧
        JsNum.gt (toNumber coerce (lookup fs "reserveSize")) (.fin 255) = false) ∧
      blockTemplate coerce (.obj fs) = ⟨.obj fs, [drpc "getblocktemplate" (.obj [
        ("wallet_address", lookup fs "address"),
        ("reserve_size", lookup fs "reserveSize")])]⟩) ∨
    (¬ (isNonNegative (lookup fs "reserveSize") = true ∧
        JsNum.gt (toNumber coerce (lookup fs "reserveSize")) (.fin 255) = false) ∧
      rejects (blockTemplate coerce (.obj fs)).events) := by
  unfold blockTemplate
  simp only [isObject, get_obj, tryRead_ok, haddr, Bool.not_true, Bool.false_eq_true, if_false]
  cases h1 : isNonNegative (lookup fs "reserveSize") with
  | false => exact Or.inr ⟨by simp, ⟨_, rfl⟩⟩
  | true =>
    cases h2 : JsNum.gt (toNumber coerce (lookup fs "reserveSize")) (.fin 255) with
    | false => exact Or.inl ⟨⟨rfl, rfl⟩, rfl⟩
    | true => exact Or.inr ⟨by simp, ⟨_, rfl⟩⟩

theorem reserveSize_ok_iff (coerce : JsVal → JsNum) (v : JsVal) :
    (isNonNegative v = true ∧ JsNum.gt (toNumber coerce v) (.fin 255) = false)
      ↔ ∃ n : Nat, n ≤ 255 ∧ v = .num (.fin n) := by
  constructor
  · rintro ⟨h1, h2⟩
    obtain ⟨n, rfl⟩ := (isNonNegative_iff v).mp h1
    refine ⟨n, ?_, rfl⟩
    simp only [toNumber, JsNum.gt, JsNum.lt, decide_eq_false_iff_not, not_lt] at h2
    exact_mod_cast h2
  · rintro ⟨n, hn, rfl⟩
    refine ⟨isNonNegative_natCast n, ?_⟩
    simp only [toNumber, JsNum.gt, JsNum.lt, decide_eq_false_iff_not, not_lt]
    exact_mod_cast hn

theorem utf16_eq (s : String) : utf16 s = s.data.flatMap utf16Units := rfl

theorem char_eq_of_toNat_eq {a b : Char} (h : a.toNat = b.toNat) : a = b := by
  rw [← Char.ofNat_toNat a, ← Char.ofNat_toNat b, h]

theorem take_flatMap_utf16Units (p cs : List Char) (hp : ∀ c ∈ p, c.toNat < 128) :
    (cs.flatMap utf16Units).take p.length = p.map Char.toNat ↔ cs.take p.length = p := by
  induction p generalizing cs with
  | nil => simp
  | cons a p ih =>
    have ha : a.toNat < 128 := hp a (List.mem_cons_self _ _)
    have ih' := fun t => ih t (fun c hc => hp c (List.mem_cons_of_mem _ hc))
    cases cs with
    | nil => simp
    | cons c t =>
      by_cases hc : c.val.toNat < 65536
      · have hu : utf16Units c = [c.toNat] := by simp [utf16Units, hc, Char.toNat]
        simp only [List.flatMap_cons, hu, List.length_cons, List.singleton_append,
          List.take_succ_cons, List.map_cons, List.cons.injEq, ih']
        constructor
        · rintro ⟨h1, h2⟩
          exact ⟨char_eq_of_toNat_eq h1, h2⟩
        · rintro ⟨h1, h2⟩
          exact ⟨by rw [h1], h2⟩
      · have hu : utf16Units c = [55296 + (c.val.toNat - 65536) / 1024,
            56320 + (c.val.toNat - 65536) % 1024] := by simp [utf16Units, hc]
        simp only [List.flatMap_cons, hu, List.length_cons, List.cons_append, List.nil_append,
          List.take_succ_cons, List.map_cons, List.cons.injEq]
        constructor
        · rintro ⟨h1, -⟩
          omega
        · rintro ⟨h1, -⟩
          rw [h1] at hc
          exact absurd (show a.val.toNat < 65536 from by
            have : a.val.toNat = a.toNat := rfl
            omega) hc

theorem utf16_ccx : utf16 "ccx" = ['c', 'c', 'x'].map Char.toNat := by decide

theorem isHexUnit_toNat_iff (c : Char) : isHexUnit c.toNat = true ↔ c ∈ hexDigits := by
  constructor
  · intro h
    have hc : c = Char.ofNat c.toNat := (Char.ofNat_toNat c).symm
    generalize c.toNat = n at h hc
    subst hc
    simp only [isHexUnit, Bool.or_eq_true, Bool.and_eq_true, decide_eq_true_eq] at h
    rcases h with (⟨h1, h2⟩ | ⟨h1, h2⟩) | ⟨h1, h2⟩ <;> interval_cases n <;> decide
  · intro h
    simp only [hexDigits, List.mem_cons, List.mem_singleton] at h
    have hmem : c ∈ hexDigits → isHexUnit c.toNat = true := by
      intro hm
      have hall : ∀ d ∈ hexDigits, isHexUnit d.toNat = true := by decide
      exact hall c hm
    exact hmem (by simpa [hexDigits] using h)

theorem hexDigits_ascii (c : Char) (h : c ∈ hexDigits) : c.toNat < 128 := by
  have hall : ∀ d ∈ hexDigits, d.toNat < 128 := by decide
  exact hall c h

theorem utf16Units_all_hex (c : Char) :
    (utf16Units c).all isHexUnit = true ↔ c ∈ hexDigits := by
  by_cases hc : c.val.toNat < 65536
  · have hu : utf16Units c = [c.toNat] := by simp [utf16Units, hc, Char.toNat]
    rw [hu]
    simp only [List.all_cons, List.all_nil, Bool.and_true]
    exact isHexUnit_toNat_iff c
  · have hu : utf16Units c = [55296 + (c.val.toNat - 65536) / 1024,
        56320 + (c.val.toNat - 65536) % 1024] := by simp [utf16Units, hc]
    rw [hu]
    constructor
    · intro h
      simp only [List.all_cons, List.all_nil, Bool.and_true, Bool.and_eq_true, isHexUnit,
        Bool.or_eq_true, decide_eq_true_eq] at h
      omega
    · intro h
      have := hexDigits_ascii c h
      have hv : c.val.toNat = c.toNat := rfl
      omega

theorem utf16_all_hex (cs : List Char) :
    (cs.flatMap utf16Units).all isHexUnit = true ↔ ∀ c ∈ cs, c ∈ hexDigits := by
  induction cs with
  | nil => simp
  | cons c t ih =>
    simp only [List.flatMap_cons, List.all_append, Bool.and_eq_true, utf16Units_all_hex, ih,
      List.mem_cons, forall_eq_or_imp]

theorem utf16_length_of_hex (cs : List Char) (h : ∀ c ∈ cs, c ∈ hexDigits) :
    (cs.flatMap utf16Units).length = cs.length := by
  induction cs with
  | nil => rfl
  | cons c t ih =>
    have hc : c.val.toNat < 65536 := by
      have := hexDigits_ascii c (h c (List.mem_cons_self _ _))
      have hv : c.val.toNat = c.toNat := rfl
      omega
    have hu : utf16Units c = [c.toNat] := by simp [utf16Units, hc, Char.toNat]
    simp only [List.flatMap_cons, hu, List.length_append, List.length_cons, List.length_nil,
      ih (fun d hd => h d (List.mem_cons_of_mem _ hd))]
    omega

theorem hostMatch_http (rest : String) (h : ∀ c ∈ rest.data, isLineTerminator c = false) :
    hostMatch ("http://" ++ rest) = some ("http", rest) := by
  have hd : ("http://" ++ rest).data
      = 'h' :: 't' :: 't' :: 'p' :: ':' :: '/' :: '/' :: rest.data := by
    rw [String.data_append]; rfl
  have hall : (rest.data.all fun c => !isLineTerminator c) = true := by
    rw [List.all_eq_true]
    intro c hc
    rw [h c hc]; rfl
  unfold hostMatch
  rw [hd]
  simp only [List.dropWhile, List.takeWhile, show ('h' != ':') = true by decide,
    show ('t' != ':') = true by decide, show ('p' != ':') = true by decide,
    show (':' != ':') = false by decide, hall, if_true]

theorem hostMatch_https (rest : String) (h : ∀ c ∈ rest.data, isLineTerminator c = false) :
    hostMatch ("https://" ++ rest) = some ("https", rest) := by
  have hd : ("https://" ++ rest).data
      = 'h' :: 't' :: 't' :: 'p' :: 's' :: ':' :: '/' :: '/' :: rest.data := by
    rw [String.data_append]; rfl
  have hall : (rest.data.all fun c => !isLineTerminator c) = true := by
    rw [List.all_eq_true]
    intro c hc
    rw [h c hc]; rfl
  unfold hostMatch
  rw [hd]
  simp only [List.dropWhile, List.takeWhile, show ('h' != ':') = true by decide,
    show ('t' != ':') = true by decide, show ('p' != ':') = true by decide,
    show ('s' != ':') = true by decide,
    show (':' != ':') = false by decide, hall, if_true]

theorem truthy_str_append (a rest : String) (ha : a.data ≠ []) :
    truthy (.str (a ++ rest)) = true := by
  have : a ++ rest ≠ "" := by
    intro h
    have hd := congrArg String.data h
    rw [String.data_append] at hd
    have : a.data = [] := (List.append_eq_nil.mp hd).1
    exact ha this
  simp [truthy, this]

theorem hostMatch_some (h p1 p2 : String) (hm : hostMatch h = some (p1, p2)) :
    h = p1 ++ ("://" ++ p2) ∧ ∀ c ∈ p2.data, isLineTerminator c = false := by
  unfold hostMatch at hm
  split at hm
  · rename_i rest hdrop
    split at hm
    · rename_i hall
      simp only [Option.some.injEq, Prod.mk.injEq] at hm
      obtain ⟨h1, h2⟩ := hm
      subst h1 h2
      constructor
      · apply String.ext
        rw [String.data_append, String.data_append]
        have := List.takeWhile_append_dropWhile (fun c => c != ':') h.data
        rw [hdrop] at this
        exact this.symm
      · intro c hc
        rw [List.all_eq_true] at hall
        have := hall c hc
        simpa using this
    · cases hm
  · cases hm

theorem newSCT_ok (h : String) (wp dp t : JsVal) (c : Client)
    (hc : newSCT (.str h) wp dp t = .ok c) :
    ∃ rest, (h = "http://" ++ rest ∨ h = "https://" ++ rest) ∧
      ∀ x ∈ rest.data, isLineTerminator x = false := by
  unfold newSCT at hc
  split at hc
  · cases hc
  · simp only at hc
    split at hc
    · cases hc
    · rename_i parse hm
      obtain ⟨p1, p2⟩ := parse
      obtain ⟨hh, hlt⟩ := hostMatch_some h p1 p2 hm
      simp only at hc
      split at hc
      · rename_i h1
        have : p1 = "http" := by simpa using h1
        subst this
        exact ⟨p2, Or.inl hh, hlt⟩
      · split at hc
        · rename_i h2
          have : p1 = "https" := by simpa using h2
          subst this
          exact ⟨p2, Or.inr hh, hlt⟩
        · cases hc

theorem noFeeReject_rejectWith (o : JsVal) (s : String) (h : s ≠ "fee" ++ err.raw) :
    noFeeReject (rejectWith o s) := by
  simp only [noFeeReject, rejectWith, List.mem_singleton]
  intro he
  injection he with he
  injection he with he
  injection he with he
  exact h he.symm

theorem noFeeReject_wrpc (o : JsVal) (method : String) (params : JsVal) :
    noFeeReject ⟨o, [wrpc method params]⟩ := by
  simp [noFeeReject, wrpc]

theorem noFeeReject_ite (c : Prop) [Decidable c] (a b : Run)
    (ha : noFeeReject a) (hb : noFeeReject b) : noFeeReject (if c then a else b) := by
  split
  · exact ha
  · exact hb

theorem noFeeReject_or_ite (c : Prop) [Decidable c] (o : JsVal) (s : String) (r k : Run)
    (hs : s ≠ "fee" ++ err.raw) (h : noFeeReject r ∨ r = k) :
    noFeeReject (if c then rejectWith o s else r) ∨ (if c then rejectWith o s else r) = k := by
  split
  · exact Or.inl (noFeeReject_rejectWith o s hs)
  · exact h

theorem noFeeReject_or_tryRead {α : Type} (o : JsVal) (X : Except JsThrow α) (f : α → Run)
    (k : Run) (h : ∀ a, noFeeReject (f a) ∨ f a = k) :
    noFeeReject (tryRead o X f) ∨ tryRead o X f = k := by
  cases X with
  | error e =>
    left
    simp only [noFeeReject, tryRead, List.mem_singleton]
    intro he
    injection he with he
    cases he
  | ok a => exact h a

theorem checkTransaction_noFeeReject_or (o : JsVal) (k : Run) :
    noFeeReject (checkTransaction o k) ∨ checkTransaction o k = k := by
  unfold checkTransaction
  refine noFeeReject_or_ite _ _ _ _ _ (by decide) ?_
  refine noFeeReject_or_tryRead _ _ _ _ fun transfers =>
    noFeeReject_or_tryRead _ _ _ _ fun ok => ?_
  refine noFeeReject_or_ite _ _ _ _ _ (by decide) ?_
  refine noFeeReject_or_tryRead _ _ _ _ fun addresses =>
    noFeeReject_or_tryRead _ _ _ _ fun addressesOk => ?_
  refine noFeeReject_or_ite _ _ _ _ _ (by decide) ?_
  refine noFeeReject_or_tryRead _ _ _ _ fun changeAddress => ?_
  refine noFeeReject_or_ite _ _ _ _ _ (by decide) ?_
  refine noFeeReject_or_tryRead _ _ _ _ fun paymentId => ?_
  refine noFeeReject_or_ite _ _ _ _ _ (by decide) ?_
  refine noFeeReject_or_tryRead _ _ _ _ fun extra => ?_
  exact noFeeReject_or_ite _ _ _ _ _ (by decide) (Or.inr rfl)

theorem renameMixInUnlock_noFeeReject_or (coerce : JsVal → JsNum) (fs : List (String × JsVal))
    (k : JsVal → Run) :
    noFeeReject (renameMixInUnlock coerce (.obj fs) k) ∨
      renameMixInUnlock coerce (.obj fs) k = k (.obj (renamed fs)) := by
  unfold renameMixInUnlock
  simp only [setDefault_obj, tryRead_ok, get_obj, rename_obj]
  refine noFeeReject_or_ite _ _ _ _ _ (by decide) ?_
  exact noFeeReject_or_ite _ _ _ _ _ (by decide) (Or.inr rfl)

theorem optionalOk_undefined (test : JsVal → Bool) : optionalOk test .undefined := rfl

theorem defaultFee_passes (coerce : JsVal → JsNum) (fs : List (String × JsVal))
    (hfee : lookup fs "fee" = .undefined) (ht : transfersOk (lookup fs "transfers")) :
    defaultFee coerce (.obj fs) = (.obj (feeField fs), none) ∧
      isNonNegative (lookup (feeField fs) "fee") = true :=
  ⟨defaultFee_obj coerce fs ht,
   (isNonNegative_feeField fs).mpr (hfee ▸ optionalOk_undefined isNonNegative)⟩

theorem flatFee_passes (coerce : JsVal → JsNum) (fs : List (String × JsVal))
    (hfee : lookup fs "fee" = .undefined) (ht : transfersOk (lookup fs "transfers")) :
    flatFee coerce (.obj fs) = .ok (.obj (flatFeeField fs)) ∧
      isNonNegative (lookup (flatFeeField fs) "fee") = true :=
  ⟨flatFee_obj coerce fs ht,
   (isNonNegative_flatFeeField fs).mpr (hfee ▸ optionalOk_undefined isNonNegative)⟩

theorem noFeeReject_send (coerce : JsVal → JsNum) (fs : List (String × JsVal))
    (hfee : lookup fs "fee" = .undefined) (ht : transfersOk (lookup fs "transfers")) :
    noFeeReject (send coerce (.obj fs)) := by
  have hX : (if isUndefined (lookup fs "transfers") then (Except.ok false : Except JsThrow Bool)
      else arrayTest (lookup fs "transfers") isTransfer) = .ok true := ht
  have hp := defaultFee_passes coerce
    (defaultField (defaultField fs "mixIn" (.num (.fin MIN_MIXIN)))
      "unlockHeight" (.num (.fin DEFAULT_UNLOCK_HEIGHT)))
    (by rw [lookup_defaultField_ne _ _ _ _ (by decide),
      lookup_defaultField_ne _ _ _ _ (by decide), hfee])
    (by rw [lookup_defaultField_ne _ _ _ _ (by decide),
      lookup_defaultField_ne _ _ _ _ (by decide)]; exact ht)
  unfold send
  simp only [isObject, get_obj, tryRead_ok, setDefault_obj, hX, hp.1, tryStep_none, hp.2,
    transferParams_obj, Bool.not_true, Bool.false_eq_true, if_false]
  refine noFeeReject_ite _ _ _ (noFeeReject_rejectWith _ _ (by decide)) ?_
  refine noFeeReject_ite _ _ _ (noFeeReject_rejectWith _ _ (by decide)) ?_
  exact noFeeReject_ite _ _ _ (noFeeReject_rejectWith _ _ (by decide)) (noFeeReject_wrpc _ _ _)

theorem noFeeReject_sendTransaction (coerce : JsVal → JsNum) (fs : List (String × JsVal))
    (hfee : lookup fs "fee" = .undefined) (ht : transfersOk (lookup fs "transfers")) :
    noFeeReject (sendTransaction coerce (.obj fs)) := by
  have hp := defaultFee_passes coerce (renamed (renameField fs "addresses" "sourceAddresses"))
    (by rw [lookup_renamed_ne _ _ (by decide) (by decide) (by decide) (by decide),
      lookup_renameField_ne _ _ _ _ (by decide) (by decide), hfee])
    (by rw [lookup_renamed_ne _ _ (by decide) (by decide) (by decide) (by decide),
      lookup_renameField_ne _ _ _ _ (by decide) (by decide)]; exact ht)
  unfold sendTransaction
  rcases checkTransaction_noFeeReject_or (.obj fs)
    (tryRead (.obj fs) (rename (.obj fs) "addresses" "sourceAddresses") fun opts0 =>
      renameMixInUnlock coerce opts0 fun opts4 =>
      tryStep (defaultFee coerce opts4) fun opts5 =>
      tryRead opts5 (get opts5 "fee") fun fee =>
      if !isNonNegative fee then rejectWith opts5 ("fee" ++ err.raw) else
      ⟨opts5, [wrpc "sendTransaction" opts5]⟩) with h | h
  · exact h
  · rw [h]
    simp only [rename_obj, tryRead_ok]
    rcases renameMixInUnlock_noFeeReject_or coerce
      (renameField fs "addresses" "sourceAddresses")
      (fun opts4 => tryStep (defaultFee coerce opts4) fun opts5 =>
        tryRead opts5 (get opts5 "fee") fun fee =>
        if !isNonNegative fee then rejectWith opts5 ("fee" ++ err.raw) else
        ⟨opts5, [wrpc "sendTransaction" opts5]⟩) with h2 | h2
    · exact h2
    · rw [h2]
      simp only [hp.1, tryStep_none, get_obj, tryRead_ok, hp.2, Bool.not_true,
        Bool.false_eq_true, if_false]
      exact noFeeReject_wrpc _ _ _

theorem noFeeReject_createDelayedTransaction (coerce : JsVal → JsNum)
    (fs : List (String × JsVal))
    (hfee : lookup fs "fee" = .undefined) (ht : transfersOk (lookup fs "transfers")) :
    noFeeReject (createDelayedTransaction coerce (.obj fs)) := by
  have hp := flatFee_passes coerce (renamed fs)
    (by rw [lookup_renamed_ne _ _ (by decide) (by decide) (by decide) (by decide), hfee])
    (by rw [lookup_renamed_ne _ _ (by decide) (by decide) (by decide) (by decide)]; exact ht)
  unfold createDelayedTransaction
  rcases checkTransaction_noFeeReject_or (.obj fs)
    (renameMixInUnlock coerce (.obj fs) fun opts4 =>
      tryRead opts4 (flatFee coerce opts4) fun opts5 =>
      tryRead opts5 (get opts5 "fee") fun fee =>
      if !isNonNegative fee then rejectWith opts5 ("fee" ++ err.raw) else
      ⟨opts5, [wrpc "createDelayedTransaction" opts5]⟩) with h | h
  · exact h
  · rw [h]
    rcases renameMixInUnlock_noFeeReject_or coerce fs
      (fun opts4 => tryRead opts4 (flatFee coerce opts4) fun opts5 =>
        tryRead opts5 (get opts5 "fee") fun fee =>
        if !isNonNegative fee then rejectWith opts5 ("fee" ++ err.raw) else
        ⟨opts5, [wrpc "createDelayedTransaction" opts5]⟩) with h2 | h2
    · exact h2
    · rw [h2]
      simp only [hp.1, get_obj, tryRead_ok, hp.2, Bool.not_true, Bool.false_eq_true, if_false]
      exact noFeeReject_wrpc _ _ _

theorem isAddress_str (v : JsVal) (h : isAddress v = true) : ∃ a : String, v = .str a := by
  cases v with
  | str a => exact ⟨a, rfl⟩
  | undefined => simp [isAddress] at h
  | null => simp [isAddress] at h
  | bool b => simp [isAddress] at h
  | num x => simp [isAddress] at h
  | arr xs => simp [isAddress] at h
  | obj fs => simp [isAddress] at h

/-! # The claims -/

/-! ## C1: address operations -/

/-- C1 (code defect). On an absent address `getBalance` and `getSpendKeys` have one effect,
the rejection with the address reason. `deleteAddress` has no `else` after its test: it
rejects with the address reason and then still hands the `deleteAddress` request to the
transport. -/
theorem c1_deleteAddress_requests_after_rejecting :
    deleteAddress .undefined =
      [.reject (.val (.str "address must be 34-character string beginning with a `s` or a `t`")),
       wrpc "deleteAddress" (.obj [("address", .undefined)])] ∧
    getBalance .undefined =
      [.reject (.val (.str "address must be 34-character string beginning with a `s` or a `t`"))] ∧
    getSpendKeys .undefined =
      [.reject (.val (.str "address must be 34-character string beginning with a `s` or a `t`"))] :=
  ⟨rfl, rfl, rfl⟩

/-! ## C2: invalid transfers -/

/-- C2. For every options object whose `transfers` is absent, is not an array, or is an
array with an element that fails `isTransfer` (the test returns false or throws), each of
`send`, `sendTransaction` and `createDelayedTransaction` has one effect only, a rejection:
no request is handed to the transport. -/
theorem c2_invalid_transfers_reject_without_request (coerce : JsVal → JsNum) (fields : List (String × JsVal))
    (h : lookup fields "transfers" = .undefined ∨
      (∀ xs, lookup fields "transfers" ≠ .arr xs) ∨
      ∃ xs, lookup fields "transfers" = .arr xs ∧ ∃ x ∈ xs, isTransfer x ≠ .ok true) :
    (∃ r, (send coerce (.obj fields)).events = [.reject r]) ∧
    (∃ r, (sendTransaction coerce (.obj fields)).events = [.reject r]) ∧
    (∃ r, (createDelayedTransaction coerce (.obj fields)).events = [.reject r]) := by
  have hX := transfers_test_fails fields h
  refine ⟨?_, ?_, ?_⟩
  · exact transfers_gate _ _ _ hX
  · exact transfers_gate _ _ _ hX
  · exact transfers_gate _ _ _ hX

/-- C2 at a transfers array whose one element is the number 5. -/
theorem c2_invalid_transfers_reject_without_request_witness :
    (∃ r, (send noCoercion (.obj [("transfers", .arr [.num (.fin 5)])])).events = [.reject r]) ∧
    (∃ r, (sendTransaction noCoercion (.obj [("transfers", .arr [.num (.fin 5)])])).events
      = [.reject r]) ∧
    (∃ r, (createDelayedTransaction noCoercion (.obj [("transfers", .arr [.num (.fin 5)])])).events
      = [.reject r]) :=
  c2_invalid_transfers_reject_without_request noCoercion [("transfers", .arr [.num (.fin 5)])]
    (Or.inr (Or.inr ⟨[.num (.fin 5)], rfl, .num (.fin 5), List.mem_singleton.mpr rfl,
      by intro h; cases h⟩))

/-! ## C3: default fee of send and sendTransaction -/

/-- C3. For every options object without a fee that `send` or `sendTransaction` accepts,
the `fee` in the serialized params is 10 plus 10 times the sum of the lengths of all
transfer messages, a transfer without a message counting as length 0. -/
theorem c3_default_fee (coerce : JsVal → JsNum) (fields : List (String × JsVal))
    (hfee : lookup fields "fee" = .undefined) :
    (accepted (send coerce (.obj fields)).events →
      ∃ p, params? (send coerce (.obj fields)).events = some p ∧
        p.member "fee" = some (.num (expectedFee (transfersOf fields)))) ∧
    (accepted (sendTransaction coerce (.obj fields)).events →
      ∃ p, params? (sendTransaction coerce (.obj fields)).events = some p ∧
        p.member "fee" = some (.num (expectedFee (transfersOf fields)))) := by
  constructor
  · intro hacc
    rcases send_cases coerce fields with ⟨-, he⟩ | ⟨-, hr⟩
    · rw [he]
      refine ⟨_, rfl, lookup_stringifyFields _ _ _ ?_⟩
      have h1 : lookup (defaultField (defaultField fields "mixIn" (.num (.fin MIN_MIXIN)))
          "unlockHeight" (.num (.fin DEFAULT_UNLOCK_HEIGHT))) "fee" = .undefined := by
        rw [lookup_defaultField_ne _ _ _ _ (by decide), lookup_defaultField_ne _ _ _ _ (by decide),
          hfee]
      have h2 : transfersOf (defaultField (defaultField fields "mixIn" (.num (.fin MIN_MIXIN)))
          "unlockHeight" (.num (.fin DEFAULT_UNLOCK_HEIGHT))) = transfersOf fields := by
        apply transfersOf_congr
        rw [lookup_defaultField_ne _ _ _ _ (by decide), lookup_defaultField_ne _ _ _ _ (by decide)]
      simp only [lookup_cons, sendFinal]
      simp only [lookup_feeField_default _ h1, h2]
      simp [stringify]
    · exact absurd hacc (rejects_not_accepted hr)
  · intro hacc
    rcases sendTransaction_cases coerce fields with ⟨-, he⟩ | ⟨-, hr⟩
    · rw [he]
      refine ⟨_, rfl, lookup_stringifyFields _ _ _ ?_⟩
      have h1 : lookup (renamed (renameField fields "addresses" "sourceAddresses")) "fee"
          = .undefined := by
        rw [lookup_renamed_ne _ _ (by decide) (by decide) (by decide) (by decide),
          lookup_renameField_ne _ _ _ _ (by decide) (by decide), hfee]
      have h2 : transfersOf (renamed (renameField fields "addresses" "sourceAddresses"))
          = transfersOf fields := by
        apply transfersOf_congr
        rw [lookup_renamed_ne _ _ (by decide) (by decide) (by decide) (by decide),
          lookup_renameField_ne _ _ _ _ (by decide) (by decide)]
      simp only [sendTransactionFinal, lookup_feeField_default _ h1, h2]
      simp [stringify]
    · exact absurd hacc (rejects_not_accepted hr)

/-- C3 at the example of the specification: transfers with the messages `ab` and the empty
string, no fee; the expected fee is 30. -/
theorem c3_default_fee_witness :
    expectedFee (transfersOf [("transfers", .arr exampleTransfers)]) = 30 ∧
    (∃ p, params? (send noCoercion (.obj [("transfers", .arr exampleTransfers)])).events = some p ∧
      p.member "fee"
        = some (.num (expectedFee (transfersOf [("transfers", .arr exampleTransfers)])))) ∧
    (∃ p, params? (sendTransaction noCoercion
        (.obj [("transfers", .arr exampleTransfers)])).events = some p ∧
      p.member "fee"
        = some (.num (expectedFee (transfersOf [("transfers", .arr exampleTransfers)])))) :=
  ⟨by decide,
   (c3_default_fee noCoercion [("transfers", .arr exampleTransfers)] rfl).1
     ⟨_, by with_unfolding_all rfl⟩,
   (c3_default_fee noCoercion [("transfers", .arr exampleTransfers)] rfl).2
     ⟨_, by with_unfolding_all rfl⟩⟩

/-! ## C4: renames of sendTransaction -/

/-- C4. For every options object that `sendTransaction` accepts (an object has each
property name once), the serialized params have `anonymity` equal to the supplied `mixIn`
(2 when absent), `unlockTime` equal to the supplied `unlockHeight` (0 when absent),
`sourceAddresses` equal to the supplied `addresses`, and none of the keys `mixIn`,
`unlockHeight` and `addresses`. -/
theorem c4_sendTransaction_renames (coerce : JsVal → JsNum) (fields : List (String × JsVal))
    (hkeys : (keys fields).Nodup)
    (hacc : accepted (sendTransaction coerce (.obj fields)).events) :
    ∃ p, params? (sendTransaction coerce (.obj fields)).events = some p ∧
      p.member "anonymity" = stringify (mixInOf fields) ∧
      p.member "unlockTime" = stringify (unlockHeightOf fields) ∧
      p.member "sourceAddresses" = stringify (lookup fields "addresses") ∧
      p.member "mixIn" = none ∧ p.member "unlockHeight" = none ∧ p.member "addresses" = none := by
  rcases sendTransaction_cases coerce fields with ⟨-, he⟩ | ⟨-, hr⟩
  · rw [he]
    have hnd := nodup_sendTransactionFinal fields hkeys
    have key : ∀ k, (Json.obj (stringifyFields (sendTransactionFinal fields))).member k
        = stringify (lookup (feeField (renamed (renameField fields "addresses" "sourceAddresses"))) k) :=
      fun k => stringifyFields_lookup _ k hnd
    refine ⟨_, rfl, ?_, ?_, ?_, ?_, ?_, ?_⟩ <;> rw [key]
    · rw [lookup_feeField_ne _ _ (by decide), lookup_renamed_anonymity,
        mixInOf_renameField_addresses]
    · rw [lookup_feeField_ne _ _ (by decide), lookup_renamed_unlockTime,
        unlockHeightOf_renameField_addresses]
    · rw [lookup_feeField_ne _ _ (by decide),
        lookup_renamed_ne _ _ (by decide) (by decide) (by decide) (by decide),
        lookup_renameField_new _ _ _ (by decide)]
    · rw [lookup_feeField_ne _ _ (by decide), lookup_renamed_mixIn_deleted]; rfl
    · rw [lookup_feeField_ne _ _ (by decide), lookup_renamed_unlockHeight_deleted]; rfl
    · rw [lookup_feeField_ne _ _ (by decide),
        lookup_renamed_ne _ _ (by decide) (by decide) (by decide) (by decide),
        lookup_renameField_old]; rfl
  · exact absurd hacc (rejects_not_accepted hr)

/-- C4 at `exampleOptions`. -/
theorem c4_sendTransaction_renames_witness :
    ∃ p, params? (sendTransaction noCoercion (.obj exampleOptions)).events = some p ∧
      p.member "anonymity" = stringify (mixInOf exampleOptions) ∧
      p.member "unlockTime" = stringify (unlockHeightOf exampleOptions) ∧
      p.member "sourceAddresses" = stringify (lookup exampleOptions "addresses") ∧
      p.member "mixIn" = none ∧ p.member "unlockHeight" = none ∧ p.member "addresses" = none :=
  c4_sendTransaction_renames noCoercion exampleOptions (by decide)
    ⟨_, by with_unfolding_all rfl⟩

/-! ## C5: renames of createDelayedTransaction -/

/-- C5 (code defect). On `exampleOptions`, which carries `addresses`, the params that
`createDelayedTransaction` hands to the transport have `anonymity` and `unlockTime` but
still the key `addresses`, and no `sourceAddresses`; `sendTransaction` on the same object
renames the key. -/
theorem c5_createDelayedTransaction_keeps_addresses :
    (createDelayedTransaction noCoercion (.obj exampleOptions)).events =
      [wrpc "createDelayedTransaction" (.obj [
        ("transfers", .arr exampleTransfers),
        ("addresses", .arr [.str exampleAddress]),
        ("anonymity", .num (.fin 3)),
        ("unlockTime", .num (.fin 5)),
        ("fee", .num (.fin 20))])] ∧
    (sendTransaction noCoercion (.obj exampleOptions)).events =
      [wrpc "sendTransaction" (.obj [
        ("transfers", .arr exampleTransfers),
        ("sourceAddresses", .arr [.str exampleAddress]),
        ("anonymity", .num (.fin 3)),
        ("unlockTime", .num (.fin 5)),
        ("fee", .num (.fin 30))])] :=
  ⟨by with_unfolding_all rfl, by with_unfolding_all rfl⟩

/-! ## C6: bounds of mixIn -/

/-- C6. Take an options object without `mixIn` that an operation accepts (it is otherwise
valid). With an integer `mixIn` of `m` added, each of `send`, `sendTransaction` and
`createDelayedTransaction` accepts it if and only if `2 <= m <= 10`; without `mixIn` the
value 2 is sent, as `mixin` by `send` and as `anonymity` by the other two. -/
theorem c6_mixIn_bounds (coerce : JsVal → JsNum) (fields : List (String × JsVal)) (m : Int)
    (habsent : lookup fields "mixIn" = .undefined) :
    (accepted (send coerce (.obj fields)).events →
      (accepted (send coerce (.obj (setField fields "mixIn" (.num (.fin m))))).events
        ↔ 2 ≤ m ∧ m ≤ 10) ∧
      ∃ p, params? (send coerce (.obj fields)).events = some p ∧
        p.member "mixin" = some (.num 2)) ∧
    (accepted (sendTransaction coerce (.obj fields)).events →
      (accepted (sendTransaction coerce (.obj (setField fields "mixIn" (.num (.fin m))))).events
        ↔ 2 ≤ m ∧ m ≤ 10) ∧
      ∃ p, params? (sendTransaction coerce (.obj fields)).events = some p ∧
        p.member "anonymity" = some (.num 2)) ∧
    (accepted (createDelayedTransaction coerce (.obj fields)).events →
      (accepted (createDelayedTransaction coerce
          (.obj (setField fields "mixIn" (.num (.fin m))))).events ↔ 2 ≤ m ∧ m ≤ 10) ∧
      ∃ p, params? (createDelayedTransaction coerce (.obj fields)).events = some p ∧
        p.member "anonymity" = some (.num 2)) := by
  have hdef : stringify (mixInOf fields) = some (.num 2) := by
    rw [mixInOf_absent fields habsent]
    simp [stringify, MIN_MIXIN]
  refine ⟨fun hacc => ⟨?_, ?_⟩, fun hacc => ⟨?_, ?_⟩, fun hacc => ⟨?_, ?_⟩⟩
  · have hok := (accepted_send_iff coerce fields).mp hacc
    rw [accepted_send_iff]
    unfold sendOk at hok ⊢
    rw [lookup_setField_ne _ _ _ _ (by decide), lookup_setField_ne _ _ _ _ (by decide),
      laterOk_setField_mixIn coerce fields m hok.2.2]
    exact ⟨fun h => h.2.2, fun h => ⟨hok.1, hok.2.1, h⟩⟩
  · rcases send_cases coerce fields with ⟨-, he⟩ | ⟨-, hr⟩
    · rw [he]
      refine ⟨_, rfl, lookup_stringifyFields _ _ _ ?_⟩
      simp only [lookup_cons]
      simp only [lookup_sendFinal_mixIn]
      simpa using hdef
    · exact absurd hacc (rejects_not_accepted hr)
  · have hok := (accepted_sendTransaction_iff coerce fields).mp hacc
    rw [accepted_sendTransaction_iff, checkOk_setField_mixIn,
      laterOk_setField_mixIn coerce fields m hok.2]
    exact ⟨fun h => h.2, fun h => ⟨hok.1, h⟩⟩
  · rcases sendTransaction_cases coerce fields with ⟨-, he⟩ | ⟨-, hr⟩
    · rw [he]
      refine ⟨_, rfl, lookup_stringifyFields _ _ _ ?_⟩
      rw [sendTransactionFinal, lookup_feeField_ne _ _ (by decide), lookup_renamed_anonymity,
        mixInOf_renameField_addresses]
      exact hdef
    · exact absurd hacc (rejects_not_accepted hr)
  · have hok := (accepted_createDelayedTransaction_iff coerce fields).mp hacc
    rw [accepted_createDelayedTransaction_iff, checkOk_setField_mixIn,
      laterOk_setField_mixIn coerce fields m hok.2]
    exact ⟨fun h => h.2, fun h => ⟨hok.1, h⟩⟩
  · rcases createDelayedTransaction_cases coerce fields with ⟨-, he⟩ | ⟨-, hr⟩
    · rw [he]
      refine ⟨_, rfl, lookup_stringifyFields _ _ _ ?_⟩
      rw [createDelayedTransactionFinal, lookup_flatFeeField_ne _ _ (by decide),
        lookup_renamed_anonymity]
      exact hdef
    · exact absurd hacc (rejects_not_accepted hr)

/-- C6 at the example transfers and `mixIn` 11, which is rejected; without `mixIn` the
value 2 is sent. -/
theorem c6_mixIn_bounds_witness :
    ((accepted (send noCoercion (.obj (setField [("transfers", .arr exampleTransfers)] "mixIn"
        (.num (.fin (11 : Int)))))).events ↔ (2 : Int) ≤ 11 ∧ (11 : Int) ≤ 10) ∧
      ∃ p, params? (send noCoercion (.obj [("transfers", .arr exampleTransfers)])).events = some p ∧
        p.member "mixin" = some (.num 2)) ∧
    ((accepted (sendTransaction noCoercion (.obj (setField [("transfers", .arr exampleTransfers)]
        "mixIn" (.num (.fin (11 : Int)))))).events ↔ (2 : Int) ≤ 11 ∧ (11 : Int) ≤ 10) ∧
      ∃ p, params? (sendTransaction noCoercion
          (.obj [("transfers", .arr exampleTransfers)])).events = some p ∧
        p.member "anonymity" = some (.num 2)) ∧
    ((accepted (createDelayedTransaction noCoercion (.obj (setField
        [("transfers", .arr exampleTransfers)] "mixIn" (.num (.fin (11 : Int)))))).events
          ↔ (2 : Int) ≤ 11 ∧ (11 : Int) ≤ 10) ∧
      ∃ p, params? (createDelayedTransaction noCoercion
          (.obj [("transfers", .arr exampleTransfers)])).events = some p ∧
        p.member "anonymity" = some (.num 2)) :=
  ⟨(c6_mixIn_bounds noCoercion [("transfers", .arr exampleTransfers)] 11 rfl).1
      ⟨_, by with_unfolding_all rfl⟩,
   (c6_mixIn_bounds noCoercion [("transfers", .arr exampleTransfers)] 11 rfl).2.1
      ⟨_, by with_unfolding_all rfl⟩,
   (c6_mixIn_bounds noCoercion [("transfers", .arr exampleTransfers)] 11 rfl).2.2
      ⟨_, by with_unfolding_all rfl⟩⟩

/-! ## C7: empty transfers -/

/-- C7, counterexample. With `transfers` the empty array and nothing else, each of `send`,
`sendTransaction` and `createDelayedTransaction` has one effect, the request: none of them
rejects. -/
theorem c7_empty_transfers_accepted :
    (send noCoercion (.obj [("transfers", .arr [])])).events =
      [wrpc "transfer" (.obj [
        ("destinations", .arr []),
        ("mixin", .num (.fin 2)),
        ("fee", .num (.fin 10)),
        ("unlock_time", .num (.fin 0)),
        ("payment_id", .undefined)])] ∧
    (sendTransaction noCoercion (.obj [("transfers", .arr [])])).events =
      [wrpc "sendTransaction" (.obj [
        ("transfers", .arr []),
        ("sourceAddresses", .undefined),
        ("anonymity", .num (.fin 2)),
        ("unlockTime", .num (.fin 0)),
        ("fee", .num (.fin 10))])] ∧
    (createDelayedTransaction noCoercion (.obj [("transfers", .arr [])])).events =
      [wrpc "createDelayedTransaction" (.obj [
        ("transfers", .arr []),
        ("anonymity", .num (.fin 2)),
        ("unlockTime", .num (.fin 0)),
        ("fee", .num (.fin 0))])] :=
  ⟨by with_unfolding_all rfl, by with_unfolding_all rfl, by with_unfolding_all rfl⟩

/-- C7, amended. For every options object whose `transfers` is the empty array, none of
`send`, `sendTransaction` and `createDelayedTransaction` rejects with the transfers reason:
the empty array passes the transfers test, and when the other parameters pass their tests
the request is issued. -/
theorem c7_empty_transfers_pass_the_test (coerce : JsVal → JsNum)
    (fields : List (String × JsVal)) (hts : lookup fields "transfers" = .arr []) :
    (noTransfersReject (send coerce (.obj fields)) ∧
      (optionalOk isHex64String (lookup fields "paymentId") ∧ laterOk coerce fields →
        accepted (send coerce (.obj fields)).events)) ∧
    (noTransfersReject (sendTransaction coerce (.obj fields)) ∧
      (optionalOk isAddressArray (lookup fields "addresses") ∧
        optionalOk isAddress (lookup fields "changeAddress") ∧
        optionalOk isHex64String (lookup fields "paymentId") ∧
        optionalOk isString (lookup fields "extra") ∧ laterOk coerce fields →
        accepted (sendTransaction coerce (.obj fields)).events)) ∧
    (noTransfersReject (createDelayedTransaction coerce (.obj fields)) ∧
      (optionalOk isAddressArray (lookup fields "addresses") ∧
        optionalOk isAddress (lookup fields "changeAddress") ∧
        optionalOk isHex64String (lookup fields "paymentId") ∧
        optionalOk isString (lookup fields "extra") ∧ laterOk coerce fields →
        accepted (createDelayedTransaction coerce (.obj fields)).events)) := by
  have ht : transfersOk (lookup fields "transfers") := hts ▸ transfersOk_empty
  refine ⟨⟨noTransfersReject_send coerce fields hts, fun h => ?_⟩,
    ⟨noTransfersReject_sendTransaction coerce fields hts, fun h => ?_⟩,
    ⟨noTransfersReject_createDelayedTransaction coerce fields hts, fun h => ?_⟩⟩
  · exact (accepted_send_iff coerce fields).mpr ⟨ht, h.1, h.2⟩
  · exact (accepted_sendTransaction_iff coerce fields).mpr
      ⟨⟨ht, h.1, h.2.1, h.2.2.1, h.2.2.2.1⟩, h.2.2.2.2⟩
  · exact (accepted_createDelayedTransaction_iff coerce fields).mpr
      ⟨⟨ht, h.1, h.2.1, h.2.2.1, h.2.2.2.1⟩, h.2.2.2.2⟩

/-- C7, amended, at the options object with `transfers` the empty array and nothing else. -/
theorem c7_empty_transfers_pass_the_test_witness :
    (noTransfersReject (send noCoercion (.obj [("transfers", .arr [])])) ∧
      accepted (send noCoercion (.obj [("transfers", .arr [])])).events) ∧
    (noTransfersReject (sendTransaction noCoercion (.obj [("transfers", .arr [])])) ∧
      accepted (sendTransaction noCoercion (.obj [("transfers", .arr [])])).events) ∧
    (noTransfersReject (createDelayedTransaction noCoercion (.obj [("transfers", .arr [])])) ∧
      accepted (createDelayedTransaction noCoercion (.obj [("transfers", .arr [])])).events) :=
  have h := c7_empty_transfers_pass_the_test noCoercion [("transfers", .arr [])] rfl
  have hl : laterOk noCoercion [("transfers", .arr [])] := ⟨by decide, by decide, rfl⟩
  ⟨⟨h.1.1, h.1.2 ⟨rfl, hl⟩⟩, ⟨h.2.1.1, h.2.1.2 ⟨rfl, rfl, rfl, rfl, hl⟩⟩,
    ⟨h.2.2.1, h.2.2.2 ⟨rfl, rfl, rfl, rfl, hl⟩⟩⟩

/-! ## C8: unwrapping of result -/

/-- C8 (code defect). The handler tests `data.result` for truthiness, not for presence: a
body whose `result` is `0`, `false` or the empty string resolves to the whole parsed body
and not to the value of `result`; a body whose `result` is an object resolves to it. -/
theorem c8_falsy_result_resolves_to_body :
    onEnd (.ok (.obj [("jsonrpc", .str "2.0"), ("id", .str "0"), ("result", .num (.fin 0))])) =
      [.resolve (.obj [("jsonrpc", .str "2.0"), ("id", .str "0"), ("result", .num (.fin 0))])] ∧
    onEnd (.ok (.obj [("jsonrpc", .str "2.0"), ("id", .str "0"), ("result", .bool false)])) =
      [.resolve (.obj [("jsonrpc", .str "2.0"), ("id", .str "0"), ("result", .bool false)])] ∧
    onEnd (.ok (.obj [("jsonrpc", .str "2.0"), ("id", .str "0"), ("result", .str "")])) =
      [.resolve (.obj [("jsonrpc", .str "2.0"), ("id", .str "0"), ("result", .str "")])] ∧
    onEnd (.ok (.obj [("jsonrpc", .str "2.0"), ("id", .str "0"),
        ("result", .obj [("count", .num (.fin 5))])])) =
      [.resolve (.obj [("count", .num (.fin 5))])] :=
  ⟨rfl, rfl, rfl, rfl⟩

/-! ## C9: protocol errors -/

/-- C9. When the body is not valid JSON the handler has one effect, the rejection with the
message of the parser. When the parsed body has an `error` that is non-empty (truthy: any
object or array, any non-empty string, any number but 0 and NaN, `true`) the handler has
one effect, the rejection with `error.message`, whatever else the body holds, a `result`
included. In neither case does it resolve. -/
theorem c9_protocol_errors_reject :
    (∀ message : String, onEnd (.error message) = [.reject (.val (.str message))]) ∧
    (∀ data error : JsVal, get data "error" = .ok error → truthy error = true →
      ∃ message, get error "message" = .ok message ∧
        onEnd (.ok data) = [.reject (.val message)]) := by
  refine ⟨fun _ => rfl, fun data error hget htruthy => ?_⟩
  have hm : ∃ message, get error "message" = .ok message := by
    cases error with
    | undefined => simp [truthy] at htruthy
    | null => simp [truthy] at htruthy
    | bool b => exact ⟨_, rfl⟩
    | num x => exact ⟨_, rfl⟩
    | str s => exact ⟨_, rfl⟩
    | arr xs => exact ⟨_, rfl⟩
    | obj fs => exact ⟨_, rfl⟩
  obtain ⟨message, hmsg⟩ := hm
  refine ⟨message, hmsg, ?_⟩
  simp only [onEnd, hget, htruthy, if_true, hmsg]

/-- C9 at a body with the error message `boom`, with and without a `result`. -/
theorem c9_protocol_errors_reject_witness :
    (∃ message, get (.obj [("message", .str "boom")]) "message" = .ok message ∧
      onEnd (.ok (.obj [("jsonrpc", .str "2.0"), ("id", .str "0"),
          ("error", .obj [("message", .str "boom")]), ("result", .num (.fin 1))]))
        = [.reject (.val message)]) ∧
    onEnd (.ok (.obj [("jsonrpc", .str "2.0"), ("id", .str "0"),
        ("error", .obj [("message", .str "boom")])])) = [.reject (.val (.str "boom"))] :=
  ⟨c9_protocol_errors_reject.2 _ (.obj [("message", .str "boom")]) rfl rfl, rfl⟩

/-! ## C10: block reference of a transaction query -/

/-- C10, counterexample. A query with a valid `blockCount` that supplies both
`firstBlockIndex` and `blockHash` is accepted by `getTransactionHashes` and by
`getTransactions`: the only effect is the request. -/
theorem c10_both_supplied_accepted :
    (getTransactionHashes (.obj exampleQuery)).events
      = [wrpc "getTransactionHashes" (.obj exampleQuery)] ∧
    (getTransactions (.obj exampleQuery)).events = [wrpc "getTransactions" (.obj exampleQuery)] :=
  ⟨rfl, rfl⟩

/-- C10, amended. For every options object with a valid `blockCount`: when neither
`firstBlockIndex` nor `blockHash` is supplied, `getTransactionHashes` and `getTransactions`
reject with the reason that one of them is required and issue no request; when at least
one is supplied, and each of `firstBlockIndex`, `blockHash`, `paymentId` and `addresses` is
absent or valid, both issue the request with the options object as params, also when
both `firstBlockIndex` and `blockHash` are supplied. -/
theorem c10_at_least_one_block_reference (fields : List (String × JsVal))
    (hbc : isNonNegative (lookup fields "blockCount") = true) :
    (isUndefined (lookup fields "firstBlockIndex") = true ∧
        isUndefined (lookup fields "blockHash") = true →
      (getTransactionHashes (.obj fields)).events = [.reject (.val (.str eitherReason))] ∧
      (getTransactions (.obj fields)).events = [.reject (.val (.str eitherReason))]) ∧
    (¬ (isUndefined (lookup fields "firstBlockIndex") = true ∧
        isUndefined (lookup fields "blockHash") = true) →
      optionalOk isNonNegative (lookup fields "firstBlockIndex") →
      optionalOk isHex64String (lookup fields "blockHash") →
      optionalOk isHex64String (lookup fields "paymentId") →
      optionalOk isAddressArray (lookup fields "addresses") →
      (getTransactionHashes (.obj fields)).events
        = [wrpc "getTransactionHashes" (.obj fields)] ∧
      (getTransactions (.obj fields)).events = [wrpc "getTransactions" (.obj fields)]) :=
  ⟨fun h => ⟨transactionQuery_neither _ fields hbc h.1 h.2,
      transactionQuery_neither _ fields hbc h.1 h.2⟩,
   fun hone h1 h2 h3 h4 => ⟨transactionQuery_accepts _ fields hbc hone h1 h2 h3 h4,
      transactionQuery_accepts _ fields hbc hone h1 h2 h3 h4⟩⟩

/-- C10, amended, at a query with neither block reference and at `exampleQuery`, which has
both. -/
theorem c10_at_least_one_block_reference_witness :
    ((getTransactionHashes (.obj [("blockCount", .num (.fin 1))])).events
        = [.reject (.val (.str eitherReason))] ∧
      (getTransactions (.obj [("blockCount", .num (.fin 1))])).events
        = [.reject (.val (.str eitherReason))]) ∧
    ((getTransactionHashes (.obj exampleQuery)).events
        = [wrpc "getTransactionHashes" (.obj exampleQuery)] ∧
      (getTransactions (.obj exampleQuery)).events
        = [wrpc "getTransactions" (.obj exampleQuery)]) :=
  ⟨(c10_at_least_one_block_reference [("blockCount", .num (.fin 1))] (by decide)).1 ⟨rfl, rfl⟩,
   (c10_at_least_one_block_reference exampleQuery (by decide)).2
     (by decide) rfl rfl rfl rfl⟩

/-! ## C11: messages without options -/

/-- C11 (code defect). Called without options, `messages` has no effect at all: the
executor rebinds `opts` to an empty object and skips the `else` chain that holds the
request, so nothing is sent and the promise is never settled. Called with an object,
empty or with valid `firstTxId` and `txLimit`, it sends one `get_messages` request with
`first_tx_id` and `tx_limit` taken from the object. -/
theorem c11_messages_without_options_sends_nothing :
    (messages .undefined).events = [] ∧
    (messages (.obj [])).events =
      [wrpc "get_messages" (.obj [("first_tx_id", .undefined), ("tx_limit", .undefined)])] ∧
    (messages (.obj [("firstTxId", .num (.fin 0)), ("txLimit", .num (.fin 10))])).events =
      [wrpc "get_messages" (.obj [("first_tx_id", .num (.fin 0)),
        ("tx_limit", .num (.fin 10))])] :=
  ⟨rfl, rfl, rfl⟩

/-! ## C12: the constructor -/

/-- C12, counterexample. The host `http://` does not match the pattern of the claim,
and the constructor accepts it, with the empty string as stored host. The host `http://a`
followed by a line feed and `b` matches the pattern of the claim, and the constructor
throws on it: the expression of the code does not match it. -/
theorem c12_empty_host_accepted :
    claimedHostPattern "http://" = false ∧
    newSCT (.str "http://") (.num (.fin 8070)) (.num (.fin 16000)) .undefined
      = .ok ⟨.http, "", .num (.fin 8070), .num (.fin 16000), .num (.fin 5000)⟩ ∧
    claimedHostPattern "http://a\nb" = true ∧
    newSCT (.str "http://a\nb") (.num (.fin 8070)) (.num (.fin 16000)) .undefined
      = .error (.err (.typeError .null "1")) :=
  ⟨by decide, rfl, by decide, rfl⟩

/-- C12, amended. Constructing a client with the host string `h` succeeds if and only if
`h` is `http://` or `https://` followed by any text, the empty text included, that holds
no line terminator; otherwise the constructor throws. On success the protocol is `http`
or `https` according to the scheme, and the stored host is the part of `h` after `://`. -/
theorem c12_constructor_accepts_scheme_and_rest (walletRpcPort daemonRpcPort timeout : JsVal) :
    (∀ rest : String, (∀ x ∈ rest.data, isLineTerminator x = false) →
      newSCT (.str ("http://" ++ rest)) walletRpcPort daemonRpcPort timeout
        = .ok ⟨.http, rest, walletRpcPort, daemonRpcPort, timeoutOf timeout⟩ ∧
      newSCT (.str ("https://" ++ rest)) walletRpcPort daemonRpcPort timeout
        = .ok ⟨.https, rest, walletRpcPort, daemonRpcPort, timeoutOf timeout⟩) ∧
    (∀ h : String,
      (∃ c, newSCT (.str h) walletRpcPort daemonRpcPort timeout = .ok c) ↔
      ∃ rest, (h = "http://" ++ rest ∨ h = "https://" ++ rest) ∧
        ∀ x ∈ rest.data, isLineTerminator x = false) := by
  have key : ∀ rest : String, (∀ x ∈ rest.data, isLineTerminator x = false) →
      newSCT (.str ("http://" ++ rest)) walletRpcPort daemonRpcPort timeout
        = .ok ⟨.http, rest, walletRpcPort, daemonRpcPort, timeoutOf timeout⟩ ∧
      newSCT (.str ("https://" ++ rest)) walletRpcPort daemonRpcPort timeout
        = .ok ⟨.https, rest, walletRpcPort, daemonRpcPort, timeoutOf timeout⟩ := by
    intro rest hrest
    constructor
    · unfold newSCT
      rw [truthy_str_append "http://" rest (by decide)]
      simp only [Bool.not_true, Bool.false_eq_true, if_false, hostMatch_http rest hrest]
      rfl
    · unfold newSCT
      rw [truthy_str_append "https://" rest (by decide)]
      simp only [Bool.not_true, Bool.false_eq_true, if_false, hostMatch_https rest hrest]
      rfl
  refine ⟨key, fun h => ⟨fun ⟨c, hc⟩ => newSCT_ok h _ _ _ c hc, ?_⟩⟩
  rintro ⟨rest, hh | hh, hrest⟩
  · exact ⟨_, hh ▸ (key rest hrest).1⟩
  · exact ⟨_, hh ▸ (key rest hrest).2⟩

/-- C12, amended, at the host `http://127.0.0.1` of the specification. -/
theorem c12_constructor_accepts_scheme_and_rest_witness :
    newSCT (.str ("http://" ++ "127.0.0.1")) (.num (.fin 8070)) (.num (.fin 16000)) .undefined
        = .ok ⟨.http, "127.0.0.1", .num (.fin 8070), .num (.fin 16000),
            timeoutOf .undefined⟩ ∧
    newSCT (.str ("https://" ++ "127.0.0.1")) (.num (.fin 8070)) (.num (.fin 16000)) .undefined
        = .ok ⟨.https, "127.0.0.1", .num (.fin 8070), .num (.fin 16000),
            timeoutOf .undefined⟩ :=
  (c12_constructor_accepts_scheme_and_rest (.num (.fin 8070)) (.num (.fin 16000))
    .undefined).1 "127.0.0.1" (by decide)

/-! ## C13: Content-Length -/

set_option maxRecDepth 100000 in
/-- C13 (code defect). `Content-Length` is `post.length`, the number of UTF-16 code units
of the body. For the body of a `send` whose transfer message is `é` the header is 247,
and the UTF-8 encoding of the body has 248 bytes. -/
theorem c13_content_length_counts_code_units :
    (∀ (host : String) (port timeout : JsVal) (post path : String),
      (requestOptions host port timeout post path).contentLength = jsLength post) ∧
    (requestOptions "127.0.0.1" (.num (.fin 8070)) (.num (.fin 5000)) examplePost
      "/json_rpc").contentLength = 247 ∧
    utf8Length examplePost = 248 :=
  ⟨fun _ _ _ _ _ => rfl, by decide, by decide⟩

/-! ## C14: isAddress -/

/-- C14. For every string `a`, `isAddress(a)` is true if and only if `a.length` is 98 and
the first three characters of `a` are `ccx`; for every value that is not a string it is
false. The length is the `length` of the language, the number of UTF-16 code units. -/
theorem c14_isAddress_iff :
    (∀ a : String,
      isAddress (.str a) = true ↔ jsLength a = 98 ∧ a.data.take 3 = ['c', 'c', 'x']) ∧
    (∀ v : JsVal, (∀ a : String, v ≠ .str a) → isAddress v = false) := by
  constructor
  · intro a
    have h := take_flatMap_utf16Units ['c', 'c', 'x'] a.data (by decide)
    simp only [isAddress, Bool.and_eq_true, beq_iff_eq, utf16_ccx]
    rw [utf16_eq]
    exact and_congr_right fun _ => h
  · intro v hv
    cases v with
    | str a => exact absurd rfl (hv a)
    | undefined => rfl
    | null => rfl
    | bool b => rfl
    | num x => rfl
    | arr xs => rfl
    | obj fs => rfl

/-- C14 at `exampleAddress`, which is an address, and at the number 5, which is not. -/
theorem c14_isAddress_iff_witness :
    (isAddress (.str exampleAddress) = true
      ↔ jsLength exampleAddress = 98 ∧ exampleAddress.data.take 3 = ['c', 'c', 'x']) ∧
    isAddress (.num (.fin 5)) = false :=
  ⟨c14_isAddress_iff.1 exampleAddress,
   c14_isAddress_iff.2 (.num (.fin 5)) (fun _ h => by cases h)⟩

/-! ## C15: isHex64String -/

/-- C15. For every string `s`, `isHex64String(s)` is true if and only if `s` has exactly
64 characters and each of them is one of `0-9`, `a-f`, `A-F`. In particular 64 hexadecimal
digits followed by a newline fail the test. -/
theorem c15_isHex64String_iff :
    (∀ s : String,
      isHex64String (.str s) = true ↔ s.length = 64 ∧ ∀ c ∈ s.data, c ∈ hexDigits) ∧
    isHex64String (.str (exampleHash ++ "\n")) = false := by
  refine ⟨fun s => ?_, by decide⟩
  simp only [isHex64String, Bool.and_eq_true, beq_iff_eq, utf16_eq, utf16_all_hex]
  constructor
  · rintro ⟨h1, h2⟩
    rw [utf16_length_of_hex _ h2] at h1
    exact ⟨h1, h2⟩
  · rintro ⟨h1, h2⟩
    rw [utf16_length_of_hex _ h2]
    exact ⟨h1, h2⟩

/-! ## C16: totality of the validators -/

/-- C16 (code defect). `isTransfer(null)` throws: `typeof null` is `object`, so the guard
`isObject` lets `null` through and the read of `null.address` raises a type error. On
`undefined`, a number, a string and an array the test returns false. -/
theorem c16_isTransfer_null_throws :
    isTransfer .null = .error (.typeError .null "address") ∧
    isTransfer .undefined = .ok false ∧
    isTransfer (.num (.fin 5)) = .ok false ∧
    isTransfer (.str "abc") = .ok false ∧
    isTransfer (.arr []) = .ok false :=
  ⟨rfl, rfl, rfl, rfl, rfl⟩

/-! ## C17: default fee of createDelayedTransaction -/

/-- C17. For every options object without a fee that `createDelayedTransaction` accepts,
the `fee` in the serialized params is 10 times the number of transfers, whatever the
messages of the transfers. -/
theorem c17_flat_default_fee (coerce : JsVal → JsNum) (fields : List (String × JsVal))
    (hfee : lookup fields "fee" = .undefined)
    (hacc : accepted (createDelayedTransaction coerce (.obj fields)).events) :
    ∃ p, params? (createDelayedTransaction coerce (.obj fields)).events = some p ∧
      p.member "fee" = some (.num (10 * (transfersOf fields).length)) := by
  rcases createDelayedTransaction_cases coerce fields with ⟨-, he⟩ | ⟨-, hr⟩
  · rw [he]
    refine ⟨_, rfl, lookup_stringifyFields _ _ _ ?_⟩
    have h1 : lookup (renamed fields) "fee" = .undefined := by
      rw [lookup_renamed_ne _ _ (by decide) (by decide) (by decide) (by decide), hfee]
    have h2 : transfersOf (renamed fields) = transfersOf fields :=
      transfersOf_congr _ _
        (lookup_renamed_ne _ _ (by decide) (by decide) (by decide) (by decide))
    simp only [createDelayedTransactionFinal, flatFeeField, h1, isUndefined, if_true,
      lookup_setField_self, h2, stringify, DEFAULT_FEE]
    simp
  · exact absurd hacc (rejects_not_accepted hr)

/-- C17 at the example transfers, whose messages have the lengths 2 and 0: the fee is 20. -/
theorem c17_flat_default_fee_witness :
    ∃ p, params? (createDelayedTransaction noCoercion
        (.obj [("transfers", .arr exampleTransfers)])).events = some p ∧
      p.member "fee"
        = some (.num (10 * (transfersOf [("transfers", .arr exampleTransfers)]).length)) :=
  c17_flat_default_fee noCoercion [("transfers", .arr exampleTransfers)] rfl
    ⟨_, by with_unfolding_all rfl⟩

/-! ## C18: reserveSize of blockTemplate -/

/-- C18. For every options object with a valid address, `blockTemplate` accepts it if and
only if `reserveSize` is an integer from 0 to 255. On acceptance its one effect is a
request to the daemon port at `/json_rpc` whose body is the JSON-RPC call of the method
`getblocktemplate`, with params that hold exactly `wallet_address`, the address, and
`reserve_size`, the reserve size. -/
theorem c18_blockTemplate_reserveSize (coerce : JsVal → JsNum)
    (fields : List (String × JsVal)) (haddr : isAddress (lookup fields "address") = true) :
    (accepted (blockTemplate coerce (.obj fields)).events
      ↔ ∃ n : Nat, n ≤ 255 ∧ lookup fields "reserveSize" = .num (.fin n)) ∧
    (accepted (blockTemplate coerce (.obj fields)).events →
      ∃ (a : String) (n : Nat),
        lookup fields "address" = .str a ∧ lookup fields "reserveSize" = .num (.fin n) ∧
        (blockTemplate coerce (.obj fields)).events =
          [.request ⟨.daemonRpcPort,
            .rpc "getblocktemplate"
              (some (.obj [("wallet_address", .str a), ("reserve_size", .num n)])),
            "/json_rpc"⟩] ∧
        ∃ p, params? (blockTemplate coerce (.obj fields)).events = some p ∧
          p.member "wallet_address" = some (.str a) ∧
          p.member "reserve_size" = some (.num n)) := by
  rcases blockTemplate_cases coerce fields haddr with ⟨hok, he⟩ | ⟨hn, hr⟩
  · obtain ⟨n, hn, hr⟩ := (reserveSize_ok_iff coerce _).mp hok
    obtain ⟨a, ha⟩ := isAddress_str _ haddr
    refine ⟨⟨fun _ => ⟨n, hn, hr⟩, fun _ => he ▸ ⟨_, rfl⟩⟩, fun _ => ⟨a, n, ha, hr, ?_, ?_⟩⟩
    · rw [he, ha, hr]; rfl
    · rw [he, ha, hr]
      exact ⟨_, rfl, rfl, rfl⟩
  · refine ⟨⟨fun h => absurd h (rejects_not_accepted hr), fun h => ?_⟩,
      fun h => absurd h (rejects_not_accepted hr)⟩
    exact absurd ((reserveSize_ok_iff coerce _).mpr h) hn

/-- C18 at the address `exampleAddress` and the reserve size 255. -/
theorem c18_blockTemplate_reserveSize_witness :
    (accepted (blockTemplate noCoercion (.obj [("address", .str exampleAddress),
        ("reserveSize", .num (.fin 255))])).events
      ↔ ∃ n : Nat, n ≤ 255 ∧ lookup [("address", .str exampleAddress),
        ("reserveSize", .num (.fin 255))] "reserveSize" = .num (.fin n)) ∧
    (∃ (a : String) (n : Nat),
      lookup [("address", .str exampleAddress), ("reserveSize", .num (.fin 255))] "address"
        = .str a ∧
      lookup [("address", .str exampleAddress), ("reserveSize", .num (.fin 255))] "reserveSize"
        = .num (.fin n) ∧
      (blockTemplate noCoercion (.obj [("address", .str exampleAddress),
          ("reserveSize", .num (.fin 255))])).events =
        [.request ⟨.daemonRpcPort,
          .rpc "getblocktemplate"
            (some (.obj [("wallet_address", .str a), ("reserve_size", .num n)])),
          "/json_rpc"⟩] ∧
      ∃ p, params? (blockTemplate noCoercion (.obj [("address", .str exampleAddress),
          ("reserveSize", .num (.fin 255))])).events = some p ∧
        p.member "wallet_address" = some (.str a) ∧
        p.member "reserve_size" = some (.num n)) ∧
    (blockTemplate noCoercion (.obj [("address", .str exampleAddress),
        ("reserveSize", .num (.fin 255))])).events =
      [.request ⟨.daemonRpcPort,
        .rpc "getblocktemplate"
          (some (.obj [("wallet_address", .str exampleAddress), ("reserve_size", .num 255)])),
        "/json_rpc"⟩] ∧
    (blockTemplate noCoercion (.obj [("address", .str exampleAddress),
        ("reserveSize", .num (.fin 256))])).events
      = [.reject (.val (.str "0 <= reserveSize <= 255"))] :=
  ⟨(c18_blockTemplate_reserveSize noCoercion [("address", .str exampleAddress),
      ("reserveSize", .num (.fin 255))] rfl).1,
   (c18_blockTemplate_reserveSize noCoercion [("address", .str exampleAddress),
      ("reserveSize", .num (.fin 255))] rfl).2 ⟨_, rfl⟩,
   rfl, rfl⟩

/-! ## C19: the reason of an address rejection -/

/-- C19 (code defect). The reason of an address rejection is the parameter name followed
by `err.addr`, which names a 34-character string beginning with `s` or `t`; it is not the
text of the claim, and it is not the rule of `isAddress`: a string of the form that the
reason names fails `isAddress`, and is rejected with that same reason. -/
theorem c19_address_reason_names_another_rule :
    getBalance (.str "abc") =
      [.reject (.val (.str "address must be 34-character string beginning with a `s` or a `t`"))] ∧
    "address" ++ err.addr ≠ "address must be a 98-character string beginning with `ccx`" ∧
    isAddress (.str exampleLegacyAddress) = false ∧
    getBalance (.str exampleLegacyAddress) =
      [.reject (.val (.str "address must be 34-character string beginning with a `s` or a `t`"))] :=
  ⟨rfl, by decide, rfl, rfl⟩

/-! ## C20: the options object after a rejection -/

/-- C20 (code defect). `sendTransaction` renames `addresses` before it tests `mixIn`: on
`exampleBadMixIn` it rejects with the reason of `mixIn` and leaves the caller with an
object whose `addresses` has become `sourceAddresses`. The retry with `mixIn` corrected to
3 overwrites `sourceAddresses` with the now absent `addresses`: the request carries no
source addresses. Likewise `createDelayedTransaction` on `exampleBadUnlockHeight` rejects
after renaming `mixIn` 5 to `anonymity`, and the retry with `unlockHeight` corrected to 0
sends `anonymity` 2. -/
theorem c20_rejection_leaves_the_object_renamed :
    (sendTransaction noCoercion (.obj exampleBadMixIn)).events
      = [.reject (.val (.str "2 <= mixIn <= 10"))] ∧
    (sendTransaction noCoercion (.obj exampleBadMixIn)).opts
      = .obj [("transfers", .arr exampleTransfers), ("mixIn", .num (.fin 11)),
          ("sourceAddresses", .arr [.str exampleAddress])] ∧
    (sendTransaction noCoercion
        (assign (sendTransaction noCoercion (.obj exampleBadMixIn)).opts "mixIn"
          (.num (.fin 3)))).events
      = [wrpc "sendTransaction" (.obj [("transfers", .arr exampleTransfers),
          ("sourceAddresses", .undefined), ("anonymity", .num (.fin 3)),
          ("unlockTime", .num (.fin 0)), ("fee", .num (.fin 30))])] ∧
    (createDelayedTransaction noCoercion (.obj exampleBadUnlockHeight)).events
      = [.reject (.val (.str "unlockHeight must be a non-negative integer"))] ∧
    (createDelayedTransaction noCoercion (.obj exampleBadUnlockHeight)).opts
      = .obj [("transfers", .arr exampleTransfers), ("unlockHeight", .num (.fin (-1))),
          ("anonymity", .num (.fin 5))] ∧
    (createDelayedTransaction noCoercion
        (assign (createDelayedTransaction noCoercion (.obj exampleBadUnlockHeight)).opts
          "unlockHeight" (.num (.fin 0)))).events
      = [wrpc "createDelayedTransaction" (.obj [("transfers", .arr exampleTransfers),
          ("anonymity", .num (.fin 2)), ("unlockTime", .num (.fin 0)),
          ("fee", .num (.fin 20))])] :=
  ⟨rfl, rfl, by with_unfolding_all rfl, by with_unfolding_all rfl, by with_unfolding_all rfl,
    by with_unfolding_all rfl⟩

/-! ## C21: the default fee passes the fee test -/

/-- C21. For every options object without a fee whose `transfers` passed the transfers
test, the default fee is a non-negative integer: the fee that `defaultFee` computes for
`send` and `sendTransaction` and the fee that `flatFee` computes for
`createDelayedTransaction` pass `isNonNegative`, and none of the three operations rejects
with the reason of the fee test. -/
theorem c21_default_fee_passes_the_fee_test (coerce : JsVal → JsNum)
    (fields : List (String × JsVal)) (hfee : lookup fields "fee" = .undefined)
    (htransfers : transfersOk (lookup fields "transfers")) :
    (∃ fs, defaultFee coerce (.obj fields) = (.obj fs, none) ∧
      isNonNegative (lookup fs "fee") = true) ∧
    (∃ fs, flatFee coerce (.obj fields) = .ok (.obj fs) ∧
      isNonNegative (lookup fs "fee") = true) ∧
    noFeeReject (send coerce (.obj fields)) ∧
    noFeeReject (sendTransaction coerce (.obj fields)) ∧
    noFeeReject (createDelayedTransaction coerce (.obj fields)) :=
  ⟨⟨_, defaultFee_passes coerce fields hfee htransfers⟩,
   ⟨_, flatFee_passes coerce fields hfee htransfers⟩,
   noFeeReject_send coerce fields hfee htransfers,
   noFeeReject_sendTransaction coerce fields hfee htransfers,
   noFeeReject_createDelayedTransaction coerce fields hfee htransfers⟩

/-- C21 at the example transfers, with no fee: the default fees are 30 and 20. -/
theorem c21_default_fee_passes_the_fee_test_witness :
    ((∃ fs, defaultFee noCoercion (.obj [("transfers", .arr exampleTransfers)])
        = (.obj fs, none) ∧ isNonNegative (lookup fs "fee") = true) ∧
      (∃ fs, flatFee noCoercion (.obj [("transfers", .arr exampleTransfers)])
        = .ok (.obj fs) ∧ isNonNegative (lookup fs "fee") = true) ∧
      noFeeReject (send noCoercion (.obj [("transfers", .arr exampleTransfers)])) ∧
      noFeeReject (sendTransaction noCoercion (.obj [("transfers", .arr exampleTransfers)])) ∧
      noFeeReject (createDelayedTransaction noCoercion
        (.obj [("transfers", .arr exampleTransfers)]))) ∧
    defaultFee noCoercion (.obj [("transfers", .arr exampleTransfers)])
      = (.obj [("transfers", .arr exampleTransfers), ("fee", .num (.fin 30))], none) ∧
    flatFee noCoercion (.obj [("transfers", .arr exampleTransfers)])
      = .ok (.obj [("transfers", .arr exampleTransfers), ("fee", .num (.fin 20))]) :=
  ⟨c21_default_fee_passes_the_fee_test noCoercion [("transfers", .arr exampleTransfers)] rfl
      (by rfl),
   by with_unfolding_all rfl, by with_unfolding_all rfl⟩

end SCT
